import Mathlib

/-!
# ejoy2d render front-end (`lib/shader.c`): a shallow embedding

The C file keeps one global `struct render_state` and talks to a GPU
abstraction through `render_*` calls.  Here the global becomes an explicit
value, and every `render_*` call is appended to a trace so that theorems can
speak about what was handed to the device and when.

Conventions
* C `int` values are `Int`; no arithmetic in this file leaves the 32-bit
  range on the inputs the theorems quantify over, except the increments of
  the draw-call counter, which are written with `int_wrap`.
* `RID` is `unsigned int`; conversions from `int` are written `% 2^32`.
* Fixed-size C arrays are total functions from the index, and every access
  is preceded by the bounds test that decides whether the C access is inside
  the array; an access outside is a `Fault`.
* `float` values are only ever copied by this file, so they are represented
  by their bit patterns.
* Pointers to caller-owned materials are addresses (`Nat`, `0` is `NULL`);
  a pointer to `RS->program[k]` is the index `k`.
* `assert` is enabled: a failed assertion stops the call.
-/

namespace Ejoy2d

/-! ## Constants of `shader.c` -/

def MAX_PROGRAM : Int := 16
def MAX_UNIFORM : Int := 16
def MAX_TEXTURE_CHANNEL : Int := 8

/-- Handle type of the device (`unsigned int`). -/
abbrev RID := Nat

/-- Conversion of a C `int` to `RID` (`unsigned int`). -/
def to_RID (id : Int) : RID := (id % 4294967296).toNat

/-- Conversion of a `RID` to a C `int` (two's complement). -/
def RID_to_int (r : RID) : Int :=
  if r % 4294967296 < 2147483648 then (r % 4294967296 : Nat) else (r % 4294967296 : Nat) - 4294967296

/-- Largest value of a C `int`. -/
def INT_MAX : Int := 2147483647

/-- The value a C `int` holds after an arithmetic result `x`: `x` itself
inside the 32-bit range, its two's-complement wrap outside it.  Signed
overflow is undefined in C; the wrap is what a build without overflow checks
computes. -/
def int_wrap (x : Int) : Int := (x + 2147483648) % 4294967296 - 2147483648

/-- Ways in which a call stops instead of returning. -/
inductive Fault where
  | assertion      -- a C `assert` failed
  | out_of_bounds  -- an array or buffer was indexed outside its extent
  | null_deref     -- a null pointer was dereferenced
  | fuel           -- the loop bound of the embedding was exhausted
  deriving DecidableEq, Repr

/-- The enumeration `UNIFORM_FORMAT`, as enumerated by the `switch` of
`shader_uniformsize`. -/
inductive UNIFORM_FORMAT where
  | UNIFORM_INVALID
  | UNIFORM_FLOAT1
  | UNIFORM_FLOAT2
  | UNIFORM_FLOAT3
  | UNIFORM_FLOAT4
  | UNIFORM_FLOAT33
  | UNIFORM_FLOAT44
  deriving DecidableEq, Repr

open UNIFORM_FORMAT

/-! ## Data model -/

/-- C `struct uniform`. -/
structure uniform where
  loc : Int
  offset : Int
  type : UNIFORM_FORMAT
  deriving DecidableEq, Repr

/-- C `struct program`.  `material` is the address of the material applied
last (`0` for `NULL`); `uniform` is the array `uniform[MAX_UNIFORM]`. -/
structure program where
  prog : RID
  st : Int
  material : Nat
  texture_number : Int
  uniform_number : Int
  uniform : Nat → uniform

/-- C `struct vertex_pack`: position (two floats) and texture coordinate
(two 16-bit values). -/
structure vertex_pack where
  vx : Nat
  vy : Nat
  tx : Nat
  ty : Nat
  deriving DecidableEq, Repr

/-- A zero-filled vertex. -/
def vertex_zero : vertex_pack := ⟨0, 0, 0, 0⟩

/-- One quad as it is submitted to `shader_draw`: four packed vertices and
the two packed colours. -/
structure quad where
  vb : List vertex_pack
  color : Nat
  additive : Nat
  deriving DecidableEq, Repr

/-- The batch buffer `struct render_buffer`: `object` quads are pending, and
`vb` is the quad array; `texid` and `vbid` name the texture and the device
vertex buffer of a buffer drawn by `shader_drawbuffer`. -/
structure render_buffer where
  object : Nat
  texid : Int
  vbid : RID
  vb : Nat → quad

/-- C `struct render_state` (the device pointer `R` is represented by the
trace kept next to it). -/
structure render_state where
  current_program : Int
  program : Nat → program
  tex : Nat → RID
  blendchange : Int
  drawcall : Int
  vertex_buffer : RID
  index_buffer : RID
  layout : RID
  vb : render_buffer

/-- Kinds of object `render_set` / `render_buffer_create` operate on. -/
inductive Target where
  | VERTEXLAYOUT
  | VERTEXBUFFER
  | INDEXBUFFER
  | TEXTURE
  | SHADER
  deriving DecidableEq, Repr

/-- Primitive kinds of `render_draw`. -/
inductive DRAW_MODE where
  | DRAW_TRIANGLE
  | DRAW_LINE
  deriving DecidableEq, Repr

/-- The `render_*` calls issued by `shader.c`. -/
inductive DevCall where
  | render_setblend (src dst : Int)
  | render_buffer_create (what : Target) (data : List Nat) (n : Nat)
  | render_register_vertexlayout
  | render_set (what : Target) (id : RID) (slot : Int)
  | render_state_reset
  | render_shader_create (vs fs : String)
  | render_shader_bind (prog : RID)
  | render_shader_locuniform (name : String)
  | render_release (what : Target) (id : RID)
  | render_buffer_update (id : RID) (data : List quad) (n : Int)
  | render_draw (mode : DRAW_MODE) (fromidx : Int) (ni : Int)
  | render_shader_setuniform (loc : Int) (t : UNIFORM_FORMAT) (v : List Nat)
  | render_shader_setuniformi (loc : Int) (idx : Int)
  deriving DecidableEq, Repr

/-- One entry of the device trace: the call, and the number of quads the
batch held when the call was issued. -/
structure Issued where
  call : DevCall
  batched : Nat
  deriving DecidableEq, Repr

/-- The program state: the global `RS` and the trace of device calls. -/
structure Machine where
  rs : render_state
  dev : List Issued

/-- What `shader.c` uses but does not define: the macros and enumerators of
the headers, the batch-buffer module, the texture lookup service and the
values the device returns.  Device answers may depend on everything that was
sent to the device before. -/
structure Host where
  MAX_COMMBINE : Nat
  BLEND_GL_ONE : Int
  BLEND_GL_ONE_MINUS_SRC_ALPHA : Int
  BLEND_ONE : Int
  BLEND_ONE_MINUS_SRC_ALPHA : Int
  blend_mode : Int → Int
  renderbuffer_add : render_buffer → quad → render_buffer × Int
  texture_glid : Int → RID
  render_buffer_create : List Issued → RID
  render_register_vertexlayout : List Issued → RID
  render_shader_create : List Issued → String → String → RID
  render_shader_locuniform : List Issued → String → Int
  sizeof_material : Int
  sizeof_float : Int
  PROGRAM_RENDERBUFFER : Int
  screen_trans : Nat → Nat → Nat × Nat

/-- Append a device call to the trace. -/
def issue (s : Machine) (c : DevCall) : Machine :=
  { s with dev := s.dev ++ [⟨c, s.rs.vb.object⟩] }

/-! ## The batch -/

/-- Modelled from the spec: `renderbuffer_add` of the batch-buffer module
(section 4.2), which is not part of this file.  It writes the quad into slot
`object`, increments `object`, and reports full (non-zero) when `object`
reaches `MAX_COMBINE` immediately after the increment. -/
def renderbuffer_add (MAX_COMBINE : Nat) (rb : render_buffer) (q : quad) : render_buffer × Int :=
  let rb1 : render_buffer :=
    { rb with object := rb.object + 1, vb := Function.update rb.vb rb.object q }
  (rb1, if rb1.object = MAX_COMBINE then 1 else 0)

/-- The vertex data `render_buffer_update` reads: the first `n` quads. -/
def pending (rb : render_buffer) : List quad :=
  (List.range rb.object).map rb.vb

/-- C `renderbuffer_commit`. -/
def renderbuffer_commit (s : Machine) (rb : render_buffer) : Machine :=
  issue s (.render_draw .DRAW_TRIANGLE 0 (6 * rb.object))

/-- C `rs_commit`. -/
def rs_commit (s : Machine) : Machine :=
  let rb := s.rs.vb
  if rb.object = 0 then s
  else
    let s1 : Machine := { s with rs := { s.rs with drawcall := int_wrap (s.rs.drawcall + 1) } }
    let s2 := issue s1 (.render_buffer_update s1.rs.vertex_buffer (pending rb) (4 * rb.object))
    let s3 := renderbuffer_commit s2 rb
    { s3 with rs := { s3.rs with vb := { s3.rs.vb with object := 0 } } }

/-- C `shader_flush`. -/
def shader_flush (s : Machine) : Machine :=
  rs_commit s

/-! ## State setters -/

/-- C `shader_texture`. -/
def shader_texture (s : Machine) (id : Int) (channel : Int) : Except Fault Machine :=
  if ¬ (channel < MAX_TEXTURE_CHANNEL) then .error .assertion
  else if channel < 0 then .error .out_of_bounds
  else if s.rs.tex channel.toNat ≠ to_RID id then
    let s1 := rs_commit s
    let s2 : Machine := { s1 with rs := { s1.rs with tex := Function.update s1.rs.tex channel.toNat (to_RID id) } }
    .ok (issue s2 (.render_set .TEXTURE (to_RID id) channel))
  else .ok s

/-- C `shader_program`. -/
def shader_program (s : Machine) (n : Int) : Except Fault Machine :=
  if s.rs.current_program ≠ n then
    let s1 := rs_commit s
    let s2 : Machine := { s1 with rs := { s1.rs with current_program := n } }
    if n < 0 ∨ MAX_PROGRAM ≤ n then .error .out_of_bounds
    else
      let p := s2.rs.program n.toNat
      let s3 := issue s2 (.render_shader_bind p.prog)
      .ok { s3 with rs := { s3.rs with program := Function.update s3.rs.program n.toNat { p with material := 0 } } }
  else .ok s

/-- C `shader_defaultblend`. -/
def shader_defaultblend (H : Host) (s : Machine) : Machine :=
  if s.rs.blendchange ≠ 0 then
    let s1 := rs_commit s
    let s2 : Machine := { s1 with rs := { s1.rs with blendchange := 0 } }
    issue s2 (.render_setblend H.BLEND_ONE H.BLEND_ONE_MINUS_SRC_ALPHA)
  else s

/-- C `shader_blend`. -/
def shader_blend (H : Host) (s : Machine) (m1 m2 : Int) : Machine :=
  if m1 ≠ H.BLEND_GL_ONE ∨ m2 ≠ H.BLEND_GL_ONE_MINUS_SRC_ALPHA then
    let s1 := rs_commit s
    let s2 : Machine := { s1 with rs := { s1.rs with blendchange := 1 } }
    let src := H.blend_mode m1
    let dst := H.blend_mode m2
    issue s2 (.render_setblend src dst)
  else s

/-! ## Drawing -/

/-- C `shader_draw`. -/
def shader_draw (H : Host) (s : Machine) (vb : List vertex_pack) (color additive : Nat) : Machine :=
  let r := H.renderbuffer_add s.rs.vb ⟨vb, color, additive⟩
  let s1 : Machine := { s with rs := { s.rs with vb := r.1 } }
  if r.2 ≠ 0 then rs_commit s1 else s1

/-- Read `vbp[n]` from the caller's vertex array. -/
def vbp_read (vbp : List vertex_pack) (n : Int) : Except Fault vertex_pack :=
  if n < 0 then .error .out_of_bounds
  else match vbp.get? n.toNat with
    | some v => .ok v
    | none => .error .out_of_bounds

/-- C `draw_quad`: vertex 0 and the three vertices `index+1 .. index+3`,
each clamped to `max`. -/
def draw_quad (H : Host) (s : Machine) (vbp : List vertex_pack) (color additive : Nat)
    (max index : Int) : Except Fault Machine := do
  let v0 ← vbp_read vbp 0
  let rest ← [1, 2, 3].mapM (fun (i : Int) =>
    let j := i + index
    let n := if j ≤ max then j else max
    vbp_read vbp n)
  pure (shader_draw H s (v0 :: rest) color additive)

/-- The `do ... while (i < n-1)` loop of `shader_drawpolygon`; the first
argument bounds the number of iterations. -/
def drawpolygon_loop (H : Host) : Nat → Machine → List vertex_pack → Nat → Nat → Int → Int →
    Except Fault Machine
  | 0, _, _, _, _, _, _ => .error .fuel
  | fuel + 1, s, vb, color, additive, n, i => do
    let s1 ← draw_quad H s vb color additive n i
    let i1 := i + 2
    if i1 < n - 1 then drawpolygon_loop H fuel s1 vb color additive n i1 else pure s1

/-- C `shader_drawpolygon`.  The loop runs at most `max 1 n` times, which is
the iteration bound handed to `drawpolygon_loop`. -/
def shader_drawpolygon (H : Host) (s : Machine) (n : Int) (vb : List vertex_pack)
    (color additive : Nat) : Except Fault Machine :=
  drawpolygon_loop H (n.toNat + 1) s vb color additive (n - 1) 0

/-! ## Initialisation, programs and the draw-call counter -/

/-- The index pattern written by the loop of `shader_init` into the local
array `uint16_t idxs[6 * MAX_COMMBINE]`. -/
def fill_idxs (M : Nat) : Nat → Nat :=
  (List.range M).foldl (fun idxs i =>
    let a0 := Function.update idxs (i * 6) ((i * 4) % 65536)
    let a1 := Function.update a0 (i * 6 + 1) ((i * 4 + 1) % 65536)
    let a2 := Function.update a1 (i * 6 + 2) ((i * 4 + 2) % 65536)
    let a3 := Function.update a2 (i * 6 + 3) ((i * 4) % 65536)
    let a4 := Function.update a3 (i * 6 + 4) ((i * 4 + 2) % 65536)
    Function.update a4 (i * 6 + 5) ((i * 4 + 3) % 65536)) (fun _ => 0)

/-- A zero-filled `struct program` (`memset(p, 0, sizeof(*p))`). -/
def program_zero : program :=
  { prog := 0, st := 0, material := 0, texture_number := 0, uniform_number := 0,
    uniform := fun _ => ⟨0, 0, UNIFORM_INVALID⟩ }

/-- A zero-filled quad slot. -/
def quad_zero : quad := ⟨[vertex_zero, vertex_zero, vertex_zero, vertex_zero], 0, 0⟩

/-- C `shader_init`, entered with `RS == NULL`. -/
def shader_init (H : Host) : Machine :=
  let rs0 : render_state :=
    { current_program := -1, program := fun _ => program_zero, tex := fun _ => 0,
      blendchange := 0, drawcall := 0, vertex_buffer := 0, index_buffer := 0, layout := 0,
      vb := { object := 0, texid := 0, vbid := 0, vb := fun _ => quad_zero } }
  let s0 : Machine := ⟨rs0, []⟩
  let s1 := issue s0 (.render_setblend H.BLEND_ONE H.BLEND_ONE_MINUS_SRC_ALPHA)
  let idxs := (List.range (6 * H.MAX_COMMBINE)).map (fill_idxs H.MAX_COMMBINE)
  let ib := H.render_buffer_create s1.dev
  let s2 := issue s1 (.render_buffer_create .INDEXBUFFER idxs (6 * H.MAX_COMMBINE))
  let s3 : Machine := { s2 with rs := { s2.rs with index_buffer := ib } }
  let vbuf := H.render_buffer_create s3.dev
  let s4 := issue s3 (.render_buffer_create .VERTEXBUFFER [] (4 * H.MAX_COMMBINE))
  let s5 : Machine := { s4 with rs := { s4.rs with vertex_buffer := vbuf } }
  let lay := H.render_register_vertexlayout s5.dev
  let s6 := issue s5 .render_register_vertexlayout
  let s7 : Machine := { s6 with rs := { s6.rs with layout := lay } }
  let s8 := issue s7 (.render_set .VERTEXLAYOUT s7.rs.layout 0)
  let s9 := issue s8 (.render_set .INDEXBUFFER s8.rs.index_buffer 0)
  issue s9 (.render_set .VERTEXBUFFER s9.rs.vertex_buffer 0)

/-- C `shader_reset`. -/
def shader_reset (H : Host) (s : Machine) : Except Fault Machine :=
  let s1 := issue s .render_state_reset
  let s2 := issue s1 (.render_setblend H.BLEND_ONE H.BLEND_ONE_MINUS_SRC_ALPHA)
  let bound : Except Fault Machine :=
    if s2.rs.current_program ≠ -1 then
      if s2.rs.current_program < 0 ∨ MAX_PROGRAM ≤ s2.rs.current_program then .error .out_of_bounds
      else .ok (issue s2 (.render_shader_bind (s2.rs.program s2.rs.current_program.toNat).prog))
    else .ok s2
  bound.map (fun s3 =>
    let s4 := issue s3 (.render_set .VERTEXLAYOUT s3.rs.layout 0)
    let s5 := issue s4 (.render_set .TEXTURE (s4.rs.tex 0) 0)
    let s6 := issue s5 (.render_set .INDEXBUFFER s5.rs.index_buffer 0)
    issue s6 (.render_set .VERTEXBUFFER s6.rs.vertex_buffer 0))

/-- Store a `struct program` into slot `i` of the table. -/
def set_program (s : Machine) (i : Nat) (p : program) : Machine :=
  { s with rs := { s.rs with program := Function.update s.rs.program i p } }

/-- C `program_init` on table slot `i`. -/
def program_init (H : Host) (s : Machine) (i : Nat) (FS VS : String) : Machine :=
  let s1 := set_program s i program_zero
  let id := H.render_shader_create s1.dev VS FS
  let s2 := issue s1 (.render_shader_create VS FS)
  let s3 := set_program s2 i { s2.rs.program i with prog := id }
  let s4 := issue s3 (.render_shader_bind (s3.rs.program i).prog)
  let st := H.render_shader_locuniform s4.dev "st"
  let s5 := issue s4 (.render_shader_locuniform "st")
  let s6 := set_program s5 i { s5.rs.program i with st := st }
  issue s6 (.render_shader_bind 0)

/-- C `shader_load`. -/
def shader_load (H : Host) (s : Machine) (prog : Int) (fs vs : String) (texture : Int) :
    Except Fault Machine :=
  if ¬ (prog ≥ 0 ∧ prog < MAX_PROGRAM) then .error .assertion
  else
    let i := prog.toNat
    let s1 :=
      if (s.rs.program i).prog ≠ 0 then
        set_program (issue s (.render_release .SHADER (s.rs.program i).prog)) i
          { s.rs.program i with prog := 0 }
      else s
    let s2 := program_init H s1 i fs vs
    let s3 := set_program s2 i { s2.rs.program i with texture_number := texture }
    .ok { s3 with rs := { s3.rs with current_program := -1 } }

/-- C `reset_drawcall_count`; `none` stands for `RS == NULL`. -/
def reset_drawcall_count (S : Option Machine) : Option Machine :=
  match S with
  | some s => some { s with rs := { s.rs with drawcall := 0 } }
  | none => none

/-- C `drawcall_count`; `none` stands for `RS == NULL`. -/
def drawcall_count (S : Option Machine) : Int :=
  match S with
  | some s => s.rs.drawcall
  | none => 0

/-! ## Uniforms -/

/-- C `shader_uniformsize`. -/
def shader_uniformsize (t : UNIFORM_FORMAT) : Int :=
  match t with
  | UNIFORM_INVALID => 0
  | UNIFORM_FLOAT1 => 1
  | UNIFORM_FLOAT2 => 2
  | UNIFORM_FLOAT3 => 3
  | UNIFORM_FLOAT4 => 4
  | UNIFORM_FLOAT33 => 9
  | UNIFORM_FLOAT44 => 16

/-- The floats a typed uniform upload reads from `base + offset`. -/
def float_run (base : List Nat) (offset : Int) (t : UNIFORM_FORMAT) : List Nat :=
  (base.drop offset.toNat).take (shader_uniformsize t).toNat

/-- C `shader_setuniform`. -/
def shader_setuniform (s : Machine) (index : Int) (t : UNIFORM_FORMAT) (v : List Nat) :
    Except Fault Machine :=
  let s1 := rs_commit s
  let prog := s1.rs.current_program
  if ¬ (prog ≥ 0 ∧ prog < MAX_PROGRAM) then .error .assertion
  else
    let p := s1.rs.program prog.toNat
    if ¬ (index ≥ 0 ∧ index < p.uniform_number) then .error .assertion
    else if MAX_UNIFORM ≤ index then .error .out_of_bounds
    else
      let u := p.uniform index.toNat
      if ¬ (t = u.type) then .error .assertion
      else .ok (issue s1 (.render_shader_setuniform u.loc t (float_run v 0 t)))

/-- C `shader_adduniform`; the second component is the returned index. -/
def shader_adduniform (H : Host) (s : Machine) (prog : Int) (name : String) (t : UNIFORM_FORMAT) :
    Except Fault (Machine × Int) :=
  if ¬ (prog ≥ 0 ∧ prog < MAX_PROGRAM) then .error .assertion
  else do
    let s1 ← shader_program s prog
    let p := s1.rs.program prog.toNat
    if ¬ (p.uniform_number < MAX_UNIFORM) then .error .assertion
    else
      let loc := H.render_shader_locuniform s1.dev name
      let s2 := issue s1 (.render_shader_locuniform name)
      if loc < 0 then pure (s2, -1)
      else
        let index := p.uniform_number
        let p1 : program := { p with uniform_number := p.uniform_number + 1 }
        if index < 0 then .error .out_of_bounds
        else
          let offset : Int :=
            if index = 0 then 0
            else
              let lu := p1.uniform (index - 1).toNat
              lu.offset + shader_uniformsize lu.type
          let u : uniform := { loc := loc, offset := offset, type := t }
          let p2 : program := { p1 with uniform := Function.update p1.uniform index.toNat u }
          pure (set_program s2 prog.toNat p2, index)

/-- C `shader_textureuniform`. -/
def shader_textureuniform (H : Host) (s : Machine) (prog : Int) (name : String) (idx : Int) :
    Except Fault Machine :=
  if ¬ (prog ≥ 0 ∧ prog < MAX_PROGRAM) then .error .assertion
  else do
    let s1 ← shader_program s prog
    let loc := H.render_shader_locuniform s1.dev name
    let s2 := issue s1 (.render_shader_locuniform name)
    if loc ≥ 0 then pure (issue s2 (.render_shader_setuniformi loc idx)) else pure s2

/-! ## Materials -/

/-- C `struct material`.  `p` is the index of the table slot the material
points to, `texture` the array `texture[MAX_TEXTURE_CHANNEL]`, and `uniform`
the float storage that follows the header, as long as the caller allocated
it. -/
structure material where
  p : Int
  texture : Nat → Int
  uniform : List Nat

/-- C `material_size`.  The sum is computed in `size_t` and returned as
`int`; the two agree with integer arithmetic as long as the result fits in
an `int`. -/
def material_size (H : Host) (s : Machine) (prog : Int) : Except Fault Int :=
  if prog < 0 ∨ MAX_PROGRAM ≤ prog then .error .out_of_bounds
  else
    let p := s.rs.program prog.toNat
    if p.uniform_number = 0 ∧ p.texture_number = 0 then .ok 0
    else if p.uniform_number - 1 < 0 ∨ MAX_UNIFORM ≤ p.uniform_number - 1 then .error .out_of_bounds
    else
      let lu := p.uniform (p.uniform_number - 1).toNat
      let total := lu.offset + shader_uniformsize lu.type
      .ok (H.sizeof_material + (total - 1) * H.sizeof_float)

/-- The `memcpy` of `material_setuniform`: `n` floats from `v` to
`dst + off`. -/
def memcpy_floats (dst : List Nat) (off : Int) (v : List Nat) (n : Int) : Except Fault (List Nat) :=
  if off < 0 ∨ n < 0 then .error .out_of_bounds
  else if v.length < n.toNat ∨ dst.length < off.toNat + n.toNat then .error .out_of_bounds
  else .ok (dst.take off.toNat ++ v.take n.toNat ++ dst.drop (off.toNat + n.toNat))

/-- C `material_setuniform`: the material after the call and the returned
code. -/
def material_setuniform (s : Machine) (m : material) (index : Int) (n : Int) (v : List Nat) :
    Except Fault (material × Int) :=
  if m.p < 0 ∨ MAX_PROGRAM ≤ m.p then .error .out_of_bounds
  else
    let p := s.rs.program m.p.toNat
    if ¬ (index ≥ 0 ∧ index < p.uniform_number) then .error .assertion
    else if MAX_UNIFORM ≤ index then .error .out_of_bounds
    else
      let u := p.uniform index.toNat
      if shader_uniformsize u.type ≠ n then .ok (m, 1)
      else (memcpy_floats m.uniform u.offset v n).map (fun st => ({ m with uniform := st }, 0))

/-- The uniform loop of `material_apply`. -/
def apply_uniforms (s : Machine) (p : program) (M : material) : Except Fault Machine :=
  (List.range p.uniform_number.toNat).foldlM (fun (s1 : Machine) (i : Nat) =>
    if MAX_UNIFORM ≤ Int.ofNat i then .error .out_of_bounds
    else
      let u := p.uniform i
      .ok (issue s1 (.render_shader_setuniform u.loc u.type (float_run M.uniform u.offset u.type)))) s

/-- The texture loop of `material_apply`. -/
def apply_textures (H : Host) (s : Machine) (p : program) (M : material) : Except Fault Machine :=
  (List.range p.texture_number.toNat).foldlM (fun (s1 : Machine) (i : Nat) =>
    if MAX_TEXTURE_CHANNEL ≤ Int.ofNat i then .error .out_of_bounds
    else
      let tex := M.texture i
      if tex ≥ 0 then
        let glid := H.texture_glid tex
        if glid ≠ 0 then shader_texture s1 (RID_to_int glid) (Int.ofNat i) else .ok s1
      else .ok s1) s

/-- C `material_apply`; `m` is the address of the material and `M` the
object stored there.  The address `&RS->program[prog]` is only compared with
`m->p`; the table is read through `m->p` after the comparison. -/
def material_apply (H : Host) (s : Machine) (prog : Int) (m : Nat) (M : material) :
    Except Fault Machine :=
  if m = 0 then .error .null_deref
  else if M.p ≠ prog then .ok s
  else if M.p < 0 ∨ MAX_PROGRAM ≤ M.p then .error .out_of_bounds
  else
    let p := s.rs.program M.p.toNat
    if p.material = m then .ok s
    else do
      let s1 := set_program s M.p.toNat { p with material := m }
      let s2 ← apply_uniforms s1 p M
      apply_textures H s2 p M

/-- C `material_settexture`. -/
def material_settexture (m : material) (channel : Int) (texture : Int) : Except Fault (material × Int) :=
  if channel ≥ MAX_TEXTURE_CHANNEL then .ok (m, 1)
  else if channel < 0 then .error .out_of_bounds
  else .ok ({ m with texture := Function.update m.texture channel.toNat texture }, 0)

/-! ## Call sequences -/

/-- The batching calls of the interface. -/
inductive Op where
  | program (n : Int)
  | texture (id channel : Int)
  | blend (m1 m2 : Int)
  | defaultblend
  | draw (vb : List vertex_pack) (color additive : Nat)
  | drawpolygon (n : Int) (vb : List vertex_pack) (color additive : Nat)
  | flush

/-- Perform one call. -/
def step (H : Host) (s : Machine) : Op → Except Fault Machine
  | .program n => shader_program s n
  | .texture id channel => shader_texture s id channel
  | .blend m1 m2 => .ok (shader_blend H s m1 m2)
  | .defaultblend => .ok (shader_defaultblend H s)
  | .draw vb color additive => .ok (shader_draw H s vb color additive)
  | .drawpolygon n vb color additive => shader_drawpolygon H s n vb color additive
  | .flush => .ok (shader_flush s)

/-- Perform a sequence of calls, stopping at the first fault. -/
def run (H : Host) (s : Machine) (ops : List Op) : Except Fault Machine :=
  ops.foldlM (step H) s

/-! ## Predicates on the device trace -/

/-- Device calls that change the bound shader, a texture channel or the
blend mode. -/
def changes_state : DevCall → Bool
  | .render_shader_bind _ => true
  | .render_set .TEXTURE _ _ => true
  | .render_setblend _ _ => true
  | _ => false

/-- Every state-changing device call of the trace was issued while the batch
held no quad. -/
def homogeneous (dev : List Issued) : Prop :=
  ∀ e ∈ dev, changes_state e.call = true → e.batched = 0

/-- Arguments with which a call of the interface is inside its contract:
program ids are table indices, texture channels are `0..7`, and a polygon
comes with at least one vertex and as many vertices as announced. -/
def Op.wf : Op → Prop
  | .program n => 0 ≤ n ∧ n < MAX_PROGRAM
  | .texture _ channel => 0 ≤ channel ∧ channel < MAX_TEXTURE_CHANNEL
  | .drawpolygon n vb _ _ => 1 ≤ n ∧ n ≤ vb.length
  | _ => True

/-! ## The polygon decomposition as the specification states it -/

/-- Vertex indices of the `k`-th quad of an `n`-vertex fan:
`[0, min(2k+1, n-1), min(2k+2, n-1), min(2k+3, n-1)]`. -/
def quad_indices (n k : Nat) : List Nat :=
  [0, min (2 * k + 1) (n - 1), min (2 * k + 2) (n - 1), min (2 * k + 3) (n - 1)]

/-- The vertices of the `k`-th quad of the fan `vb` (`vertex_zero` stands
for a vertex the array does not have). -/
def fan_quad (n : Nat) (vb : List vertex_pack) (k : Nat) : List vertex_pack :=
  (quad_indices n k).map (fun j => vb.getD j vertex_zero)

/-- The quads of an `n`-vertex fan, `ceil((n-2)/2)` of them, in order. -/
def polygon_quads (n : Nat) (vb : List vertex_pack) : List (List vertex_pack) :=
  (List.range ((n - 2 + 1) / 2)).map (fan_quad n vb)

/-- Submit a list of quads to `shader_draw`, one after the other. -/
def draw_all (H : Host) (s : Machine) (qs : List (List vertex_pack)) (color additive : Nat) :
    Machine :=
  qs.foldl (fun s1 q => shader_draw H s1 q color additive) s

/-! ## Concrete inputs -/

/-- A small host on which the definitions can be evaluated: batches of at
most two quads, the enumerators of the headers, a device that hands out
handle `7` and resolves every uniform name to location `3`, and a screen
transform that leaves its arguments as they are. -/
def host0 : Host :=
  { MAX_COMMBINE := 2
    BLEND_GL_ONE := 1
    BLEND_GL_ONE_MINUS_SRC_ALPHA := 771
    BLEND_ONE := 2
    BLEND_ONE_MINUS_SRC_ALPHA := 6
    blend_mode := fun m => m
    renderbuffer_add := renderbuffer_add 2
    texture_glid := fun t => t.toNat + 1
    render_buffer_create := fun _ => 7
    render_register_vertexlayout := fun _ => 7
    render_shader_create := fun _ _ _ => 7
    render_shader_locuniform := fun _ _ => 3
    sizeof_material := 48
    sizeof_float := 4
    PROGRAM_RENDERBUFFER := 1
    screen_trans := fun x y => (x, y) }

/-- Four vertices of a unit square. -/
def square : List vertex_pack := [⟨0, 0, 0, 0⟩, ⟨1, 0, 1, 0⟩, ⟨1, 1, 1, 1⟩, ⟨0, 1, 0, 1⟩]

/-- A call sequence that changes program, texture and blend mode between
draws. -/
def ops0 : List Op :=
  [.program 0, .draw square 0 0, .texture 5 0, .draw square 0 0, .blend 770 1,
   .drawpolygon 4 square 0 0, .defaultblend, .flush]

/-- The state reached by `ops0` from the initialised state. -/
def after_ops0 : Machine :=
  match run host0 (shader_init host0) ops0 with
  | .ok s => s
  | .error _ => shader_init host0

/-- A fan of seven distinct vertices. -/
def heptagon : List vertex_pack :=
  [⟨0, 0, 0, 0⟩, ⟨1, 0, 0, 0⟩, ⟨2, 0, 0, 0⟩, ⟨3, 0, 0, 0⟩, ⟨4, 0, 0, 0⟩, ⟨5, 0, 0, 0⟩, ⟨6, 0, 0, 0⟩]

/-! ## Observers of the device trace -/

/-- Index counts of the draw calls of a trace, in order. -/
def draws (dev : List Issued) : List Int :=
  dev.filterMap (fun e => match e.call with
    | .render_draw _ _ ni => some ni
    | _ => none)

/-- Quads uploaded by the vertex-buffer updates of a trace, in order. -/
def uploads (dev : List Issued) : List (List quad) :=
  dev.filterMap (fun e => match e.call with
    | .render_buffer_update _ data _ => some data
    | _ => none)

/-- Submit a list of quads through `shader_draw`. -/
def submit_all (H : Host) (s : Machine) (qs : List quad) : Machine :=
  qs.foldl (fun s1 q => shader_draw H s1 q.vb q.color q.additive) s

/-- Quads are submitted from batch state `t`, `P` lists everything
submitted since state `s`: what was uploaded since then followed by what is
pending is `P`, full batches were drawn and the rest is pending. -/
structure overflow_inv (M : Nat) (s t : Machine) (P : List quad) : Prop where
  tail : ∃ tl, t.dev = s.dev ++ tl ∧ (uploads tl).flatten ++ pending t.rs.vb = P ∧
    (draws tl).length = P.length / M ∧
    draws tl = (uploads tl).map (fun d => 6 * (d.length : Int)) ∧
    ∀ d ∈ uploads tl, 0 < d.length ∧ d.length ≤ M
  count : t.rs.vb.object = P.length % M

/-- Three quads told apart by their colour. -/
def three_quads : List quad := [⟨square, 1, 0⟩, ⟨square, 2, 0⟩, ⟨square, 3, 0⟩]

/-- A state with two pending quads. -/
def two_pending : Machine := submit_all { host0 with MAX_COMMBINE := 4, renderbuffer_add := renderbuffer_add 4 }
  (shader_init host0) [⟨square, 1, 0⟩, ⟨square, 2, 0⟩]

/-! ## Uniform registration in sequence -/

/-- Register the uniforms `decls` on program `prog` by consecutive calls of
`shader_adduniform`, collecting the returned indices. -/
def adduniforms (H : Host) (s : Machine) (prog : Int) :
    List (String × UNIFORM_FORMAT) → Except Fault (Machine × List Int)
  | [] => .ok (s, [])
  | d :: rest => do
    let r ← shader_adduniform H s prog d.1 d.2
    let rs ← adduniforms H r.1 prog rest
    pure (rs.1, r.2 :: rs.2)

/-- Sum of the element counts of the first `i` declared types. -/
def packed_offset (types : List UNIFORM_FORMAT) (i : Nat) : Int :=
  ((types.take i).map shader_uniformsize).sum

/-- The uniform table of `p` holds `types`, packed: `j` slots, slot `i` of
type `types[i]` at offset `packed_offset types i`. -/
structure packed (p : program) (j : Nat) (types : List UNIFORM_FORMAT) : Prop where
  len : types.length = j
  number : p.uniform_number = (j : Int)
  slot : ∀ i, i < j → (p.uniform i).offset = packed_offset types i ∧
    types.get? i = some (p.uniform i).type

/-- Program 0 freshly loaded in the initialised state, declaring one texture. -/
def loaded0 : Machine :=
  match shader_load host0 (shader_init host0) 0 "fs" "vs" 1 with
  | .ok s => s
  | .error _ => shader_init host0

/-- Declarations of types vec4, mat4 and scalar. -/
def decls0 : List (String × UNIFORM_FORMAT) :=
  [("color", UNIFORM_FLOAT4), ("mvp", UNIFORM_FLOAT44), ("alpha", UNIFORM_FLOAT1)]

/-- The state after registering `decls0` on the freshly loaded program 0. -/
def registered0 : Machine :=
  match adduniforms host0 loaded0 0 decls0 with
  | .ok r => r.1
  | .error _ => loaded0

/-- A material for program 0 with room for 21 floats, all zero. -/
def mat0 : material := { p := 0, texture := fun _ => -1, uniform := List.replicate 21 0 }

/-- Typed uniform uploads of a trace, in order: location, type and the
floats read. -/
def uniform_uploads (dev : List Issued) : List (Int × UNIFORM_FORMAT × List Nat) :=
  dev.filterMap (fun e => match e.call with
    | .render_shader_setuniform loc t v => some (loc, t, v)
    | _ => none)

/-- The upload `material_apply` issues for uniform slot `i` of `p`. -/
def slot_upload (p : program) (M : material) (i : Nat) : Int × UNIFORM_FORMAT × List Nat :=
  ((p.uniform i).loc, (p.uniform i).type,
    float_run M.uniform (p.uniform i).offset (p.uniform i).type)

/-- Program 1 loaded next to the registered program 0 and made current. -/
def other_current : Machine :=
  match shader_load host0 registered0 1 "fs" "vs" 0 with
  | .ok s =>
    match shader_program s 1 with
    | .ok s1 => s1
    | .error _ => registered0
  | .error _ => registered0

/-- The state after `material_apply(0, m)` in `other_current`, for the
material `mat0` stored at address 7. -/
def after_mismatch : Machine :=
  match material_apply host0 other_current 0 7 mat0 with
  | .ok s => s
  | .error _ => other_current

/-- A state with one pending quad and the default blend mode. -/
def unblended : Machine := shader_draw host0 (shader_init host0) square 0 0

/-- The counter value after `n` increments `RS->drawcall++` from `x`. -/
def bump : Nat → Int → Int
  | 0, x => x
  | n + 1, x => int_wrap (bump n x + 1)

/-- Between `s0` and `s` the draw-call counter was incremented once per draw
call issued; all but `k` of the draws come with a vertex upload, that is,
from a flush of a non-empty batch. -/
def counted (k : Nat) (s0 s : Machine) : Prop :=
  ∃ tl, s.dev = s0.dev ++ tl ∧ s.rs.drawcall = bump (draws tl).length s0.rs.drawcall ∧
    (draws tl).length = (uploads tl).length + k

/-- Three state changes, each finding one quad in the batch. -/
def ops3 : List Op :=
  [.draw square 0 0, .program 0, .draw square 0 0, .texture 5 0, .draw square 0 0, .blend 770 1]

/-- The initialised state after `reset_drawcall_count`. -/
def reset0 : Machine :=
  match reset_drawcall_count (some (shader_init host0)) with
  | some s => s
  | none => shader_init host0

/-- The state reached by `ops3` after the reset. -/
def after_ops3 : Machine :=
  match run host0 reset0 ops3 with
  | .ok s => s
  | .error _ => reset0

/-- The host `host0` with a device that resolves no uniform name. -/
def host1 : Host := { host0 with render_shader_locuniform := fun _ _ => -1 }

/-- Program 1 is current, program 0 has the material at address 7 cached,
and one quad is pending. -/
def busy : Machine := shader_draw host0 after_mismatch square 0 0

/-- The state after the failed registration on program 0 in `busy`. -/
def after_failed : Machine :=
  match shader_adduniform host1 busy 0 "missing" UNIFORM_FLOAT1 with
  | .ok r => r.1
  | .error _ => busy

/-- Program 0 is current and has the material at address 7 applied. -/
def applied0 : Machine :=
  match material_apply host0 registered0 0 7 mat0 with
  | .ok s => s
  | .error _ => registered0

/-- The state after `shader_reset` in `applied0`. -/
def reset_applied0 : Machine :=
  match shader_reset host0 applied0 with
  | .ok s => s
  | .error _ => applied0

/-- Program 0 is current and one quad is pending. -/
def busy0 : Machine := shader_draw host0 registered0 square 0 0

/-- The state after `material_apply(0, m)` in `busy0`, for the material
`mat0` stored at address 7. -/
def applied_busy0 : Machine :=
  match material_apply host0 busy0 0 7 mat0 with
  | .ok s => s
  | .error _ => busy0

/-- A device call stays within buffers made for `M` quads: an upload brings at
most `4*M` vertices and a draw covers at most `6*M` indices. -/
def fits (M : Nat) (e : Issued) : Prop :=
  match e.call with
  | .render_buffer_update _ data n => n ≤ 4 * (M : Int) ∧ data.length ≤ M
  | .render_draw _ _ ni => ni ≤ 6 * (M : Int)
  | _ => True

/-- The batch holds fewer than `M` quads and every device call so far fits. -/
def roomy (M : Nat) (s : Machine) : Prop :=
  s.rs.vb.object < M ∧ ∀ e ∈ s.dev, fits M e

/-! ## Triangles assembled from the index buffer -/

/-- The contents `shader_init` hands to the device for the index buffer. -/
def index_data (M : Nat) : List Nat :=
  (List.range (6 * M)).map (fill_idxs M)

/-- The two triangles the device assembles for the quad in slot `q`: the
vertex-buffer positions named by the six indices of that slot. -/
def index_triangles (idxs : List Nat) (q : Nat) : List (List Nat) :=
  [[idxs.getD (6 * q) 0, idxs.getD (6 * q + 1) 0, idxs.getD (6 * q + 2) 0],
   [idxs.getD (6 * q + 3) 0, idxs.getD (6 * q + 4) 0, idxs.getD (6 * q + 5) 0]]

/-- The triangles drawn for an `n`-vertex fan, as triples of fan vertex
indices, when the `k`-th quad of the fan sits in slot `slot k` of the
vertex buffer: position `4 * slot k + i` holds the `i`-th vertex of that
quad, which is the fan vertex `(quad_indices n k)[i]`. -/
def fan_triangles_drawn (idxs : List Nat) (n : Nat) (slot : Nat → Nat) : List (List Nat) :=
  (List.range ((n - 2 + 1) / 2)).flatMap (fun k =>
    (index_triangles idxs (slot k)).map (fun tri =>
      tri.map (fun pos => (quad_indices n k).getD (pos - 4 * slot k) 0)))

/-- The triangles `(v0, vj, vj+1)`, `j = 1 .. n-2`, of an `n`-vertex fan. -/
def fan_triangles (n : Nat) : List (List Nat) :=
  (List.range (n - 2)).map (fun i => [0, i + 1, i + 2])

/-- Slot `j` of the uniform table of program `prog`. -/
def table_slot (s : Machine) (prog : Int) (j : Nat) : uniform :=
  (s.rs.program prog.toNat).uniform j

/-- The total float footprint of program `prog`, the `total` computed by
`material_size`: the last uniform's offset plus its size. -/
def uniform_footprint (s : Machine) (prog : Int) : Int :=
  let p := s.rs.program prog.toNat
  let lu := p.uniform (p.uniform_number - 1).toNat
  lu.offset + shader_uniformsize lu.type

/-- Sixteen floats for the mat4 slot. -/
def sixteen : List Nat := [1, 2, 3, 4, 5, 6, 7, 8, 9, 10, 11, 12, 13, 14, 15, 16]

/-- The material `mat0` after setting its mat4 slot to `sixteen`. -/
def mat0_mvp : material :=
  match material_setuniform registered0 mat0 1 16 sixteen with
  | .ok r => r.1
  | .error _ => mat0

/-! ## Drawing an external buffer -/

/-- C `shader_drawbuffer`: `rb` is the caller's pre-batched buffer, and the
floats `tx`, `ty`, `scale` go through `screen_trans` of the screen module. -/
def shader_drawbuffer (H : Host) (s : Machine) (rb : render_buffer) (tx ty scale : Nat) :
    Except Fault Machine :=
  let s1 := rs_commit s
  let glid := H.texture_glid rb.texid
  if glid = 0 then .ok s1
  else do
    let s2 ← shader_texture s1 (RID_to_int glid) 0
    let s3 ← shader_program s2 H.PROGRAM_RENDERBUFFER
    let s4 : Machine := { s3 with rs := { s3.rs with drawcall := int_wrap (s3.rs.drawcall + 1) } }
    let s5 := issue s4 (.render_set .VERTEXBUFFER rb.vbid 0)
    let sxy := H.screen_trans scale scale
    let txy := H.screen_trans tx ty
    if s5.rs.current_program < 0 ∨ MAX_PROGRAM ≤ s5.rs.current_program then .error .out_of_bounds
    else
      let p := s5.rs.program s5.rs.current_program.toNat
      let s6 := issue s5 (.render_shader_setuniform p.st UNIFORM_FLOAT4 [sxy.1, sxy.2, txy.1, txy.2])
      let s7 := renderbuffer_commit s6 rb
      .ok (issue s7 (.render_set .VERTEXBUFFER s7.rs.vertex_buffer 0))

/-- The setter, draw and flush calls of the interface: the batching calls
and `shader_drawbuffer`. -/
inductive Call where
  | op (o : Op)
  | drawbuffer (rb : render_buffer) (tx ty scale : Nat)

/-- Perform one call. -/
def call_step (H : Host) (s : Machine) : Call → Except Fault Machine
  | .op o => step H s o
  | .drawbuffer rb tx ty scale => shader_drawbuffer H s rb tx ty scale

/-- Perform a sequence of calls, stopping at the first fault. -/
def run_calls (H : Host) (s : Machine) (calls : List Call) : Except Fault Machine :=
  calls.foldlM (call_step H) s

/-- Number of `shader_drawbuffer` calls in a sequence that reach their draw:
those whose buffer has a device texture (`texture_glid` is not 0). -/
def drawbuffer_calls (H : Host) : List Call → Nat
  | [] => 0
  | .op _ :: rest => drawbuffer_calls H rest
  | .drawbuffer rb _ _ _ :: rest =>
    (if H.texture_glid rb.texid = 0 then 0 else 1) + drawbuffer_calls H rest

/-- A pre-batched buffer of three quads in device vertex buffer 9. -/
def ext_buffer : render_buffer := { object := 3, texid := 0, vbid := 9, vb := fun _ => quad_zero }

/-- The state after `shader_drawbuffer` right after the reset. -/
def after_drawbuffer : Machine :=
  match run_calls host0 reset0 [.drawbuffer ext_buffer 0 0 0] with
  | .ok s => s
  | .error _ => reset0

/-- The sequence `n` times `shader_draw`, `shader_flush`. -/
def pump : Nat → List Op
  | 0 => []
  | n + 1 => .draw square 0 0 :: .flush :: pump n

/-- The calls of `ops3` followed by one `shader_drawbuffer`. -/
def calls4 : List Call := ops3.map Call.op ++ [.drawbuffer ext_buffer 0 0 0]

/-- The state reached by `calls4` after the reset. -/
def after_calls4 : Machine :=
  match run_calls host0 reset0 calls4 with
  | .ok s => s
  | .error _ => reset0

/-! # Theorems -/

/-! ## Flushing -/

theorem rs_commit_object (s : Machine) : (rs_commit s).rs.vb.object = 0 := by
  unfold rs_commit
  by_cases h : s.rs.vb.object = 0
  · simp [h]
  · simp [h, renderbuffer_commit, issue]

theorem rs_commit_empty (s : Machine) (h : s.rs.vb.object = 0) : rs_commit s = s := by
  simp [rs_commit, h]

theorem int_wrap_eq (x : Int) (h1 : -2147483648 ≤ x) (h2 : x ≤ 2147483647) : int_wrap x = x := by
  unfold int_wrap
  omega

theorem rs_commit_nonempty (s : Machine) (h : s.rs.vb.object ≠ 0) :
    rs_commit s =
      { rs := { s.rs with drawcall := int_wrap (s.rs.drawcall + 1),
                          vb := { s.rs.vb with object := 0 } },
        dev := s.dev ++
          [⟨.render_buffer_update s.rs.vertex_buffer (pending s.rs.vb) (4 * s.rs.vb.object),
              s.rs.vb.object⟩,
           ⟨.render_draw .DRAW_TRIANGLE 0 (6 * s.rs.vb.object), s.rs.vb.object⟩] } := by
  simp [rs_commit, h, renderbuffer_commit, issue]

theorem homogeneous_append {l1 l2 : List Issued} (h1 : homogeneous l1) (h2 : homogeneous l2) :
    homogeneous (l1 ++ l2) := by
  intro e he hc
  rcases List.mem_append.1 he with h | h
  · exact h1 e h hc
  · exact h2 e h hc

theorem rs_commit_homogeneous (s : Machine) (h : homogeneous s.dev) :
    homogeneous (rs_commit s).dev := by
  by_cases h0 : s.rs.vb.object = 0
  · rw [rs_commit_empty s h0]; exact h
  · rw [rs_commit_nonempty s h0]
    refine homogeneous_append h ?_
    intro e he hc
    simp at he
    rcases he with rfl | rfl <;> simp [changes_state] at hc

theorem issue_homogeneous (s : Machine) (c : DevCall) (h : homogeneous s.dev)
    (h0 : s.rs.vb.object = 0) : homogeneous (issue s c).dev := by
  refine homogeneous_append h ?_
  intro e he _
  simp at he
  rw [he]
  exact h0

/-- C3. Flush contract: on an empty batch `shader_flush` returns the state
it was given, device trace and draw-call counter included; on a batch of
`c > 0` quads, the counter holding an `int` value below `INT_MAX`, it adds 1
to the draw-call counter, uploads the first `c` quads (`4*c` vertices) to
the shared vertex buffer, issues one indexed triangle draw from index 0 over
`6*c` indices and nothing else, and leaves `object = 0` with every other
field of the render state as it was; without the bound on the counter the
same holds with the counter incremented as a C `int` (`int_wrap`). -/
theorem shader_flush_contract (s : Machine) :
    (s.rs.vb.object = 0 → shader_flush s = s) ∧
    (∀ c : Nat, s.rs.vb.object = c → 0 < c →
      -2147483648 ≤ s.rs.drawcall → s.rs.drawcall < INT_MAX →
      (shader_flush s).rs.drawcall = s.rs.drawcall + 1 ∧
      (shader_flush s).dev = s.dev ++
        [⟨.render_buffer_update s.rs.vertex_buffer ((List.range c).map s.rs.vb.vb) (4 * c), c⟩,
         ⟨.render_draw .DRAW_TRIANGLE 0 (6 * c), c⟩] ∧
      (shader_flush s).rs.vb.object = 0 ∧
      (shader_flush s).rs.current_program = s.rs.current_program ∧
      (shader_flush s).rs.program = s.rs.program ∧
      (shader_flush s).rs.tex = s.rs.tex ∧
      (shader_flush s).rs.blendchange = s.rs.blendchange ∧
      (shader_flush s).rs =
        { s.rs with drawcall := s.rs.drawcall + 1, vb := { s.rs.vb with object := 0 } }) ∧
    (∀ c : Nat, s.rs.vb.object = c → 0 < c →
      (shader_flush s).dev = s.dev ++
        [⟨.render_buffer_update s.rs.vertex_buffer ((List.range c).map s.rs.vb.vb) (4 * c), c⟩,
         ⟨.render_draw .DRAW_TRIANGLE 0 (6 * c), c⟩] ∧
      (shader_flush s).rs =
        { s.rs with drawcall := int_wrap (s.rs.drawcall + 1),
                    vb := { s.rs.vb with object := 0 } }) := by
  refine ⟨fun h => rs_commit_empty s h, ?_, ?_⟩
  · intro c hc hpos hlo hhi
    have h0 : s.rs.vb.object ≠ 0 := by omega
    have hw : int_wrap (s.rs.drawcall + 1) = s.rs.drawcall + 1 :=
      int_wrap_eq _ (by omega) (by simp only [INT_MAX] at hhi; omega)
    subst hc
    unfold shader_flush
    rw [rs_commit_nonempty s h0, hw]
    simp [pending]
  · intro c hc hpos
    have h0 : s.rs.vb.object ≠ 0 := by omega
    subst hc
    unfold shader_flush
    rw [rs_commit_nonempty s h0]
    simp [pending]

/-! ## Batching homogeneity -/

theorem shader_texture_homogeneous (s s1 : Machine) (id channel : Int)
    (h : homogeneous s.dev) (hs : shader_texture s id channel = .ok s1) :
    homogeneous s1.dev := by
  unfold shader_texture at hs
  split_ifs at hs with h1 h2 h3
  · cases hs
    exact issue_homogeneous _ _ (rs_commit_homogeneous s h) (rs_commit_object s)
  · cases hs; exact h

theorem shader_program_homogeneous (s s1 : Machine) (n : Int)
    (h : homogeneous s.dev) (hs : shader_program s n = .ok s1) :
    homogeneous s1.dev := by
  unfold shader_program at hs
  split_ifs at hs with h1 h2
  · simp only [Except.ok.injEq] at hs
    subst hs
    exact issue_homogeneous _ _ (rs_commit_homogeneous s h) (rs_commit_object s)
  · cases hs; exact h

theorem shader_defaultblend_homogeneous (H : Host) (s : Machine) (h : homogeneous s.dev) :
    homogeneous (shader_defaultblend H s).dev := by
  unfold shader_defaultblend
  split_ifs with h1
  · exact issue_homogeneous _ _ (rs_commit_homogeneous s h) (rs_commit_object s)
  · exact h

theorem shader_blend_homogeneous (H : Host) (s : Machine) (m1 m2 : Int) (h : homogeneous s.dev) :
    homogeneous (shader_blend H s m1 m2).dev := by
  unfold shader_blend
  split_ifs with h1
  · exact issue_homogeneous _ _ (rs_commit_homogeneous s h) (rs_commit_object s)
  · exact h

theorem shader_draw_homogeneous (H : Host) (s : Machine) (vb : List vertex_pack) (c a : Nat)
    (h : homogeneous s.dev) : homogeneous (shader_draw H s vb c a).dev := by
  unfold shader_draw
  dsimp only
  split_ifs with h1
  · exact rs_commit_homogeneous _ h
  · exact h

theorem draw_quad_ok (H : Host) (s s1 : Machine) (vbp : List vertex_pack) (c a : Nat)
    (mx index : Int) (hs : draw_quad H s vbp c a mx index = .ok s1) :
    ∃ q, s1 = shader_draw H s q c a := by
  unfold draw_quad at hs
  cases h0 : vbp_read vbp 0 with
  | error e => simp [h0, bind, Except.bind] at hs
  | ok v0 =>
    simp only [h0, bind, Except.bind] at hs
    split at hs
    · cases hs
    · simp only [pure, Except.pure, Except.ok.injEq] at hs
      exact ⟨_, hs.symm⟩

theorem drawpolygon_loop_homogeneous (H : Host) (vb : List vertex_pack) (c a : Nat) (n : Int) :
    ∀ (fuel : Nat) (s s1 : Machine) (i : Int), homogeneous s.dev →
      drawpolygon_loop H fuel s vb c a n i = .ok s1 → homogeneous s1.dev := by
  intro fuel
  induction fuel with
  | zero => intro s s1 i _ hs; simp [drawpolygon_loop] at hs
  | succ k ih =>
    intro s s1 i h hs
    unfold drawpolygon_loop at hs
    cases hq : draw_quad H s vb c a n i with
    | error e => simp [hq, bind, Except.bind] at hs
    | ok s2 =>
      simp only [hq, bind, Except.bind] at hs
      obtain ⟨q, rfl⟩ := draw_quad_ok H s s2 vb c a n i hq
      have h2 := shader_draw_homogeneous H s q c a h
      split_ifs at hs with hlt
      · exact ih _ _ _ h2 hs
      · simp only [pure, Except.pure, Except.ok.injEq] at hs
        subst hs; exact h2

theorem step_homogeneous (H : Host) (s s1 : Machine) (op : Op)
    (h : homogeneous s.dev) (hs : step H s op = .ok s1) : homogeneous s1.dev := by
  cases op with
  | program n => exact shader_program_homogeneous s s1 n h hs
  | texture id channel => exact shader_texture_homogeneous s s1 id channel h hs
  | blend m1 m2 =>
    simp only [step, Except.ok.injEq] at hs
    subst hs; exact shader_blend_homogeneous H s m1 m2 h
  | defaultblend =>
    simp only [step, Except.ok.injEq] at hs
    subst hs; exact shader_defaultblend_homogeneous H s h
  | draw vb c a =>
    simp only [step, Except.ok.injEq] at hs
    subst hs; exact shader_draw_homogeneous H s vb c a h
  | drawpolygon n vb c a =>
    exact drawpolygon_loop_homogeneous H vb c a (n - 1) _ s s1 0 h hs
  | flush =>
    simp only [step, Except.ok.injEq] at hs
    subst hs; exact rs_commit_homogeneous s h

theorem run_homogeneous (H : Host) (ops : List Op) :
    ∀ (s s1 : Machine), homogeneous s.dev → run H s ops = .ok s1 → homogeneous s1.dev := by
  induction ops with
  | nil =>
    intro s s1 h hs
    simp only [run, List.foldlM, pure, Except.pure, Except.ok.injEq] at hs
    subst hs; exact h
  | cons op ops ih =>
    intro s s1 h hs
    simp only [run, List.foldlM] at hs
    cases hq : step H s op with
    | error e => simp [hq, bind, Except.bind] at hs
    | ok s2 =>
      simp only [hq, bind, Except.bind] at hs
      exact ih s2 s1 (step_homogeneous H s s2 op h hq) hs

theorem shader_init_homogeneous (H : Host) : homogeneous (shader_init H).dev := by
  intro e he _
  simp [shader_init, issue] at he
  rcases he with rfl | rfl | rfl | rfl | rfl | rfl | rfl <;> rfl

/-! ## Polygons -/

theorem vbp_read_ok (vbp : List vertex_pack) (j : Int) (d : vertex_pack) (h0 : 0 ≤ j)
    (h1 : j < vbp.length) : vbp_read vbp j = .ok (vbp.getD j.toNat d) := by
  unfold vbp_read
  have hlt : j.toNat < vbp.length := by omega
  have hn : ¬ j < 0 := by omega
  simp [hn, List.getElem?_eq_getElem hlt]

/-- The index `draw_quad` reads for its vertex `i`. -/
theorem clamp_index (i k n : Nat) (hn : 1 ≤ n) :
    (if (i : Int) + ((2 * k : Nat) : Int) ≤ ((n : Int) - 1) then (i : Int) + ((2 * k : Nat) : Int)
      else ((n : Int) - 1)) = ((min (2 * k + i) (n - 1) : Nat) : Int) := by
  split_ifs with h <;> omega

theorem draw_quad_eq (H : Host) (s : Machine) (vb : List vertex_pack) (c a : Nat) (n k : Nat)
    (h1 : 1 ≤ n) (h2 : n ≤ vb.length) :
    draw_quad H s vb c a ((n : Int) - 1) ((2 * k : Nat) : Int) =
      .ok (shader_draw H s (fan_quad n vb k) c a) := by
  have e1 : (if (1 : Int) + ((2 * k : Nat) : Int) ≤ (n : Int) - 1 then (1 : Int) + ((2 * k : Nat) : Int)
      else (n : Int) - 1) = ((min (2 * k + 1) (n - 1) : Nat) : Int) := by
    split_ifs with h <;> omega
  have e2 : (if (2 : Int) + ((2 * k : Nat) : Int) ≤ (n : Int) - 1 then (2 : Int) + ((2 * k : Nat) : Int)
      else (n : Int) - 1) = ((min (2 * k + 2) (n - 1) : Nat) : Int) := by
    split_ifs with h <;> omega
  have e3 : (if (3 : Int) + ((2 * k : Nat) : Int) ≤ (n : Int) - 1 then (3 : Int) + ((2 * k : Nat) : Int)
      else (n : Int) - 1) = ((min (2 * k + 3) (n - 1) : Nat) : Int) := by
    split_ifs with h <;> omega
  have r0 := vbp_read_ok vb 0 vertex_zero (le_refl 0) (by omega)
  have r1 := vbp_read_ok vb ((min (2 * k + 1) (n - 1) : Nat) : Int) vertex_zero (by omega) (by omega)
  have r2 := vbp_read_ok vb ((min (2 * k + 2) (n - 1) : Nat) : Int) vertex_zero (by omega) (by omega)
  have r3 := vbp_read_ok vb ((min (2 * k + 3) (n - 1) : Nat) : Int) vertex_zero (by omega) (by omega)
  simp only [Int.toNat_ofNat, Int.toNat_zero] at r0 r1 r2 r3
  unfold draw_quad
  simp only [List.mapM_cons, List.mapM_nil, e1, e2, e3, r0, r1, r2, r3, bind, Except.bind, pure,
    Except.pure, fan_quad, quad_indices, List.map]

theorem drawpolygon_loop_eq (H : Host) (vb : List vertex_pack) (c a : Nat) (n : Nat)
    (h1 : 1 ≤ n) (h2 : n ≤ vb.length) :
    ∀ (fuel : Nat) (s : Machine) (k m : Nat), 1 ≤ m → m ≤ fuel →
      (2 * (k + m) + 2 ≥ n ∧ (m = 1 ∨ 2 * (k + m) < n)) →
      drawpolygon_loop H fuel s vb c a ((n : Int) - 1) ((2 * k : Nat) : Int) =
        .ok (draw_all H s ((List.range' k m).map (fan_quad n vb)) c a) := by
  intro fuel
  induction fuel with
  | zero => intro s k m hm hf; omega
  | succ f ih =>
    intro s k m hm hf hcount
    unfold drawpolygon_loop
    simp only [draw_quad_eq H s vb c a n k h1 h2, bind, Except.bind]
    have hi : ((2 * k : Nat) : Int) + 2 = ((2 * (k + 1) : Nat) : Int) := by push_cast; ring
    rw [hi]
    by_cases hlt : ((2 * (k + 1) : Nat) : Int) < (n : Int) - 1 - 1
    · simp only [hlt, if_true]
      obtain ⟨m1, rfl⟩ : ∃ m1, m = m1 + 1 := ⟨m - 1, by omega⟩
      have hm1 : 1 ≤ m1 := by omega
      rw [ih _ (k + 1) m1 hm1 (by omega) (by omega)]
      simp [draw_all, List.range'_succ]
    · simp only [hlt, if_false]
      have hm1 : m = 1 := by omega
      subst hm1
      simp [draw_all, pure, Except.pure]

theorem shader_drawpolygon_eq (H : Host) (s : Machine) (vb : List vertex_pack) (c a : Nat)
    (n : Nat) (h1 : 1 ≤ n) (h2 : n ≤ vb.length) :
    shader_drawpolygon H s (n : Int) vb c a =
      .ok (draw_all H s ((List.range' 0 (max 1 ((n - 1) / 2))).map (fan_quad n vb)) c a) := by
  unfold shader_drawpolygon
  have := drawpolygon_loop_eq H vb c a n h1 h2 ((n : Int).toNat + 1) s 0 (max 1 ((n - 1) / 2))
    (by omega) (by simp only [Int.toNat_ofNat]; omega) (by omega)
  simpa using this

theorem step_ok_of_wf (H : Host) (s : Machine) (op : Op) (h : op.wf) :
    ∃ s1, step H s op = .ok s1 := by
  cases op with
  | program n =>
    obtain ⟨h0, h1⟩ := h
    simp only [step]
    unfold shader_program
    dsimp only
    split_ifs with ha hb
    · omega
    · exact ⟨_, rfl⟩
    · exact ⟨_, rfl⟩
  | texture id channel =>
    obtain ⟨h0, h1⟩ := h
    simp only [step]
    unfold shader_texture
    dsimp only
    split_ifs with ha hb
    · omega
    · exact ⟨_, rfl⟩
    · exact ⟨_, rfl⟩
  | blend m1 m2 => exact ⟨_, rfl⟩
  | defaultblend => exact ⟨_, rfl⟩
  | draw vb c a => exact ⟨_, rfl⟩
  | drawpolygon n vb c a =>
    obtain ⟨h0, h1⟩ := h
    obtain ⟨k, rfl⟩ : ∃ k : Nat, n = (k : Int) := ⟨n.toNat, by omega⟩
    exact ⟨_, shader_drawpolygon_eq H s vb c a k (by omega) (by omega)⟩
  | flush => exact ⟨_, rfl⟩

theorem run_ok_of_wf (H : Host) (ops : List Op) :
    ∀ s : Machine, (∀ op ∈ ops, op.wf) → ∃ s1, run H s ops = .ok s1 := by
  induction ops with
  | nil => intro s _; exact ⟨s, rfl⟩
  | cons op ops ih =>
    intro s h
    obtain ⟨s2, h2⟩ := step_ok_of_wf H s op (h op (List.mem_cons_self _ _))
    obtain ⟨s1, h1⟩ := ih s2 (fun o ho => h o (List.mem_cons_of_mem _ ho))
    refine ⟨s1, ?_⟩
    simp only [run, List.foldlM, h2, bind, Except.bind]
    exact h1

/-- C1. Batching homogeneity: whatever sequence of `shader_program`,
`shader_texture`, `shader_blend`, `shader_defaultblend`, `shader_draw`,
`shader_drawpolygon` and `shader_flush` calls is run from the initialised
state, every device call of the resulting trace that changes the bound
shader, a texture channel or the blend mode was issued while the batch held
0 quads, so no batch spans such a change; and a sequence whose arguments are
inside the contract of each call runs to its end. -/
theorem batching_homogeneity (H : Host) (ops : List Op) :
    (∀ s1 : Machine, run H (shader_init H) ops = .ok s1 →
      ∀ e ∈ s1.dev, changes_state e.call = true → e.batched = 0) ∧
    ((∀ op ∈ ops, op.wf) → ∃ s1, run H (shader_init H) ops = .ok s1) :=
  ⟨fun s1 h => run_homogeneous H ops (shader_init H) s1 (shader_init_homogeneous H) h,
   fun h => run_ok_of_wf H ops (shader_init H) h⟩

theorem run_ops0 : run host0 (shader_init host0) ops0 = .ok after_ops0 := rfl

/-- Witness for C1: the sequence `ops0` runs to its end, flushing three
times, and its trace is homogeneous. -/
theorem batching_homogeneity_witness :
    run host0 (shader_init host0) ops0 = .ok after_ops0 ∧
    after_ops0.rs.drawcall = 3 ∧
    ∀ e ∈ after_ops0.dev, changes_state e.call = true → e.batched = 0 :=
  ⟨run_ops0, by decide, (batching_homogeneity host0 ops0).1 after_ops0 run_ops0⟩

/-- C4. Polygon decomposition: for every `n ≥ 3` and every vertex array of
at least `n` vertices, `shader_drawpolygon` returns, and what it does is
submit to `shader_draw`, in order `k = 0, 1, ...`, exactly `ceil((n-2)/2)`
quads, the `k`-th made of the vertices with indices
`[0, min(2k+1, n-1), min(2k+2, n-1), min(2k+3, n-1)]`; all these indices are
below `n`; for `n = 7` the index lists are `[0,1,2,3]`, `[0,3,4,5]`,
`[0,5,6,6]`. -/
theorem shader_drawpolygon_decomposition (H : Host) (s : Machine) (vb : List vertex_pack)
    (c a : Nat) (n : Nat) (hn : 3 ≤ n) (hvb : n ≤ vb.length) :
    shader_drawpolygon H s (n : Int) vb c a =
        .ok (draw_all H s ((List.range ((n - 2 + 1) / 2)).map (fun k =>
          (quad_indices n k).map (fun j => vb.getD j vertex_zero))) c a) ∧
    ((List.range ((n - 2 + 1) / 2)).map (quad_indices n)).length = (n - 2 + 1) / 2 ∧
    (∀ k j, j ∈ quad_indices n k → j < n) ∧
    (List.range ((7 - 2 + 1) / 2)).map (quad_indices 7) = [[0, 1, 2, 3], [0, 3, 4, 5], [0, 5, 6, 6]] := by
  refine ⟨?_, by simp, ?_, by decide⟩
  · rw [shader_drawpolygon_eq H s vb c a n (by omega) hvb]
    have hm : max 1 ((n - 1) / 2) = (n - 2 + 1) / 2 := by omega
    rw [hm, List.range_eq_range']
    rfl
  · intro k j hj
    simp only [quad_indices, List.mem_cons, List.mem_singleton, List.not_mem_nil, or_false] at hj
    omega

/-- Witness for C4: the seven-vertex fan is decomposed into the three quads
of the specification. -/
theorem shader_drawpolygon_decomposition_witness :
    shader_drawpolygon host0 (shader_init host0) 7 heptagon 0 0 =
        .ok (draw_all host0 (shader_init host0) ((List.range ((7 - 2 + 1) / 2)).map (fun k =>
          (quad_indices 7 k).map (fun j => heptagon.getD j vertex_zero))) 0 0) ∧
    (List.range ((7 - 2 + 1) / 2)).map (fun k =>
          (quad_indices 7 k).map (fun j => heptagon.getD j vertex_zero)) =
      [[⟨0, 0, 0, 0⟩, ⟨1, 0, 0, 0⟩, ⟨2, 0, 0, 0⟩, ⟨3, 0, 0, 0⟩],
       [⟨0, 0, 0, 0⟩, ⟨3, 0, 0, 0⟩, ⟨4, 0, 0, 0⟩, ⟨5, 0, 0, 0⟩],
       [⟨0, 0, 0, 0⟩, ⟨5, 0, 0, 0⟩, ⟨6, 0, 0, 0⟩, ⟨6, 0, 0, 0⟩]] :=
  ⟨(shader_drawpolygon_decomposition host0 (shader_init host0) heptagon 0 0 7 (by decide)
      (by decide)).1, by decide⟩

/-! ## Batch overflow -/

theorem pending_add (M : Nat) (rb : render_buffer) (q : quad) :
    pending (renderbuffer_add M rb q).1 = pending rb ++ [q] := by
  simp only [pending, renderbuffer_add, List.range_succ, List.map_append, List.map_cons,
    List.map_nil, Function.update_same]
  congr 1
  apply List.map_congr_left
  intro i hi
  have : i ≠ rb.object := by
    have := List.mem_range.1 hi
    omega
  simp [Function.update_noteq this]

theorem pending_length (rb : render_buffer) : (pending rb).length = rb.object := by
  simp [pending]

theorem succ_div_mod (a M : Nat) (hM : 0 < M) :
    (a % M + 1 = M → (a + 1) / M = a / M + 1 ∧ (a + 1) % M = 0) ∧
    (a % M + 1 ≠ M → (a + 1) / M = a / M ∧ (a + 1) % M = a % M + 1) := by
  have h := Nat.div_add_mod a M
  have hlt := Nat.mod_lt a hM
  constructor
  · intro he
    rw [Nat.div_mod_unique hM]
    rw [Nat.mul_add]
    omega
  · intro hne
    rw [Nat.div_mod_unique hM]
    omega

theorem ceil_div (a M : Nat) (hM : 0 < M) :
    (a + M - 1) / M = a / M + (if a % M = 0 then 0 else 1) := by
  have h := Nat.div_add_mod a M
  have hlt := Nat.mod_lt a hM
  by_cases h0 : a % M = 0
  · simp only [h0, if_true, Nat.add_zero]
    have : (a + M - 1) / M = a / M ∧ (a + M - 1) % M = M - 1 := by
      rw [Nat.div_mod_unique hM]
      omega
    exact this.1
  · simp only [h0, if_false]
    have : (a + M - 1) / M = a / M + 1 ∧ (a + M - 1) % M = a % M - 1 := by
      rw [Nat.div_mod_unique hM]
      rw [Nat.mul_add]
      omega
    exact this.1

theorem uploads_append (l1 l2 : List Issued) : uploads (l1 ++ l2) = uploads l1 ++ uploads l2 := by
  simp [uploads, List.filterMap_append]

theorem draws_append (l1 l2 : List Issued) : draws (l1 ++ l2) = draws l1 ++ draws l2 := by
  simp [draws, List.filterMap_append]

theorem shader_draw_full (H : Host) (hadd : H.renderbuffer_add = renderbuffer_add H.MAX_COMMBINE)
    (t : Machine) (q : quad) (hfull : t.rs.vb.object + 1 = H.MAX_COMMBINE) :
    shader_draw H t q.vb q.color q.additive =
      { rs := { t.rs with
                drawcall := int_wrap (t.rs.drawcall + 1),
                vb := { t.rs.vb with object := 0,
                                     vb := Function.update t.rs.vb.vb t.rs.vb.object q } },
        dev := t.dev ++
          [⟨.render_buffer_update t.rs.vertex_buffer (pending t.rs.vb ++ [q])
              (4 * ((t.rs.vb.object + 1 : Nat) : Int)), t.rs.vb.object + 1⟩,
           ⟨.render_draw .DRAW_TRIANGLE 0 (6 * ((t.rs.vb.object + 1 : Nat) : Int)),
              t.rs.vb.object + 1⟩] } := by
  obtain ⟨qv, qc, qa⟩ := q
  have hpend := pending_add H.MAX_COMMBINE t.rs.vb ⟨qv, qc, qa⟩
  have h2 : (renderbuffer_add H.MAX_COMMBINE t.rs.vb ⟨qv, qc, qa⟩).2 ≠ 0 := by
    simp [renderbuffer_add, hfull]
  unfold shader_draw
  simp only [hadd, h2, ne_eq, not_false_eq_true, if_true]
  rw [rs_commit_nonempty _ (by simp [renderbuffer_add])]
  simp only [hpend]
  rfl

theorem shader_draw_room (H : Host) (hadd : H.renderbuffer_add = renderbuffer_add H.MAX_COMMBINE)
    (t : Machine) (q : quad) (hroom : t.rs.vb.object + 1 ≠ H.MAX_COMMBINE) :
    shader_draw H t q.vb q.color q.additive =
      { t with rs := { t.rs with
                vb := { t.rs.vb with object := t.rs.vb.object + 1,
                                     vb := Function.update t.rs.vb.vb t.rs.vb.object q } } } := by
  obtain ⟨qv, qc, qa⟩ := q
  have h2 : (renderbuffer_add H.MAX_COMMBINE t.rs.vb ⟨qv, qc, qa⟩).2 = 0 := by
    simp [renderbuffer_add, hroom]
  unfold shader_draw
  simp only [hadd, h2, ne_eq, not_true_eq_false, if_false]
  rfl

theorem overflow_inv_draw (H : Host) (hadd : H.renderbuffer_add = renderbuffer_add H.MAX_COMMBINE)
    (hM : 0 < H.MAX_COMMBINE) (s t : Machine) (P : List quad) (q : quad)
    (h : overflow_inv H.MAX_COMMBINE s t P) :
    overflow_inv H.MAX_COMMBINE s (shader_draw H t q.vb q.color q.additive) (P ++ [q]) := by
  obtain ⟨⟨tl, hdev, hcat, hdraws, hpair, hbound⟩, hcount⟩ := h
  have hdm := succ_div_mod P.length H.MAX_COMMBINE hM
  have hpend := pending_add H.MAX_COMMBINE t.rs.vb q
  by_cases hfull : t.rs.vb.object + 1 = H.MAX_COMMBINE
  · rw [shader_draw_full H hadd t q hfull]
    obtain ⟨hd, hm⟩ := hdm.1 (by omega)
    refine ⟨⟨tl ++ _, by rw [hdev, List.append_assoc], ?_, ?_, ?_, ?_⟩, ?_⟩
    · simp only [uploads_append, List.flatten_append, pending, List.range_zero, List.map_nil,
        List.append_nil]
      simp only [uploads, List.filterMap_cons, List.filterMap_nil, List.flatten_cons,
        List.flatten_nil, List.append_nil]
      rw [← hcat]
      simp only [uploads, pending, List.append_assoc]
    · simp only [draws_append, List.length_append, hdraws, List.length_append, List.length_singleton,
        hd]
      simp [draws]
    · simp only [draws_append, uploads_append, List.map_append, hpair]
      simp [draws, uploads, pending_length]
    · intro d hd
      simp only [uploads_append, List.mem_append] at hd
      rcases hd with hd | hd
      · exact hbound d hd
      · simp only [uploads, List.filterMap_cons, List.filterMap_nil, List.mem_singleton] at hd
        subst hd
        simp only [List.length_append, pending_length, List.length_singleton]
        omega
    · simp [hm]
  · rw [shader_draw_room H hadd t q hfull]
    obtain ⟨hd, hm⟩ := hdm.2 (by omega)
    refine ⟨⟨tl, hdev, ?_, ?_, hpair, hbound⟩, ?_⟩
    · rw [← hcat, List.append_assoc]
      congr 1
    · simp only [hdraws, List.length_append, List.length_singleton, hd]
    · simp only [List.length_append, List.length_singleton, hm, hcount]

theorem overflow_inv_submit (H : Host) (hadd : H.renderbuffer_add = renderbuffer_add H.MAX_COMMBINE)
    (hM : 0 < H.MAX_COMMBINE) (s : Machine) (qs : List quad) :
    ∀ (t : Machine) (P : List quad), overflow_inv H.MAX_COMMBINE s t P →
      overflow_inv H.MAX_COMMBINE s (submit_all H t qs) (P ++ qs) := by
  induction qs with
  | nil => intro t P h; simpa [submit_all] using h
  | cons q qs ih =>
    intro t P h
    have h1 := ih _ _ (overflow_inv_draw H hadd hM s t P q h)
    simpa [submit_all] using h1

theorem overflow_inv_init (M : Nat) (s : Machine) (h0 : s.rs.vb.object = 0) :
    overflow_inv M s s [] :=
  ⟨⟨[], by simp, by simp [uploads, pending, h0], by simp [draws], by simp [draws, uploads],
    by simp [uploads]⟩, by simp [h0]⟩

/-- C2. Batch overflow: with `renderbuffer_add` as section 4.2 describes it
and `MAX_COMBINE > 0`, submitting `MAX_COMBINE + k` quads through
`shader_draw` from an empty batch and closing with `shader_flush` appends to
the device trace exactly `ceil((MAX_COMBINE+k)/MAX_COMBINE)` draws; each draw
covers the quads of the upload that precedes it (6 indices per quad), at
most `MAX_COMBINE` of them; and the uploaded vertex data, concatenated, are
the submitted quads in submission order. -/
theorem batch_overflow (H : Host) (hadd : H.renderbuffer_add = renderbuffer_add H.MAX_COMMBINE)
    (hM : 0 < H.MAX_COMMBINE) (s : Machine) (hempty : s.rs.vb.object = 0) (k : Nat)
    (qs : List quad) (hlen : qs.length = H.MAX_COMMBINE + k) :
    ∃ tl, (shader_flush (submit_all H s qs)).dev = s.dev ++ tl ∧
      (draws tl).length = (H.MAX_COMMBINE + k + H.MAX_COMMBINE - 1) / H.MAX_COMMBINE ∧
      draws tl = (uploads tl).map (fun d => 6 * (d.length : Int)) ∧
      (∀ d ∈ uploads tl, 0 < d.length ∧ d.length ≤ H.MAX_COMMBINE) ∧
      (∀ ni ∈ draws tl, ni ≤ 6 * (H.MAX_COMMBINE : Int)) ∧
      (uploads tl).flatten = qs := by
  have hinv := overflow_inv_submit H hadd hM s qs s [] (overflow_inv_init _ s hempty)
  rw [List.nil_append] at hinv
  obtain ⟨⟨tl, hdev, hcat, hdraws, hpair, hbound⟩, hcount⟩ := hinv
  have hceil := ceil_div qs.length H.MAX_COMMBINE hM
  rw [hlen] at hceil
  have key : ∃ tl, (shader_flush (submit_all H s qs)).dev = s.dev ++ tl ∧
      (draws tl).length = (H.MAX_COMMBINE + k + H.MAX_COMMBINE - 1) / H.MAX_COMMBINE ∧
      draws tl = (uploads tl).map (fun d => 6 * (d.length : Int)) ∧
      (∀ d ∈ uploads tl, 0 < d.length ∧ d.length ≤ H.MAX_COMMBINE) ∧
      (uploads tl).flatten = qs := by
    unfold shader_flush
    by_cases h0 : (submit_all H s qs).rs.vb.object = 0
    · rw [rs_commit_empty _ h0]
      refine ⟨tl, hdev, ?_, hpair, hbound, ?_⟩
      · rw [hceil, hdraws, hlen]
        have : (H.MAX_COMMBINE + k) % H.MAX_COMMBINE = 0 := by rw [← hlen, ← hcount]; exact h0
        rw [if_pos this, Nat.add_zero]
      · have hp : pending (submit_all H s qs).rs.vb = [] := by simp [pending, h0]
        rw [hp, List.append_nil] at hcat
        exact hcat
    · rw [rs_commit_nonempty _ h0]
      have hlt := Nat.mod_lt qs.length hM
      refine ⟨tl ++ _, by rw [hdev, List.append_assoc], ?_, ?_, ?_, ?_⟩
      · rw [hceil, draws_append, List.length_append, hdraws, hlen]
        have : (H.MAX_COMMBINE + k) % H.MAX_COMMBINE ≠ 0 := by rw [← hlen, ← hcount]; exact h0
        rw [if_neg this]
        simp [draws]
      · simp only [draws_append, uploads_append, List.map_append, hpair]
        simp [draws, uploads, pending_length]
      · intro d hd
        simp only [uploads_append, List.mem_append] at hd
        rcases hd with hd | hd
        · exact hbound d hd
        · simp only [uploads, List.filterMap_cons, List.filterMap_nil, List.mem_singleton] at hd
          subst hd
          rw [pending_length]
          omega
      · simp only [uploads_append, List.flatten_append]
        simp only [uploads, List.filterMap_cons, List.filterMap_nil, List.flatten_cons,
          List.flatten_nil, List.append_nil]
        exact hcat
  obtain ⟨tl2, h1, h2, h3, h4, h5⟩ := key
  refine ⟨tl2, h1, h2, h3, h4, ?_, h5⟩
  intro ni hni
  rw [h3, List.mem_map] at hni
  obtain ⟨d, hd, rfl⟩ := hni
  have := (h4 d hd).2
  omega

theorem three_quads_draws :
    draws (shader_flush (submit_all host0 (shader_init host0) three_quads)).dev = [12, 6] ∧
    uploads (shader_flush (submit_all host0 (shader_init host0) three_quads)).dev =
      [[⟨square, 1, 0⟩, ⟨square, 2, 0⟩], [⟨square, 3, 0⟩]] := by
  decide

/-- Witness for C2: with batches of two quads, three quads give two draws,
of two quads and of one quad. -/
theorem batch_overflow_witness :
    ∃ tl, (shader_flush (submit_all host0 (shader_init host0) three_quads)).dev =
        (shader_init host0).dev ++ tl ∧
      (draws tl).length = (2 + 1 + 2 - 1) / 2 ∧
      draws tl = (uploads tl).map (fun d => 6 * (d.length : Int)) ∧
      (∀ d ∈ uploads tl, 0 < d.length ∧ d.length ≤ 2) ∧
      (∀ ni ∈ draws tl, ni ≤ 6 * (2 : Int)) ∧
      (uploads tl).flatten = three_quads :=
  batch_overflow host0 rfl (by decide) (shader_init host0) rfl 1 three_quads rfl

/-- Witness for C3: flushing a batch of two quads. -/
theorem shader_flush_contract_witness :
    (shader_flush two_pending).rs.drawcall = two_pending.rs.drawcall + 1 ∧
    (shader_flush two_pending).dev = two_pending.dev ++
      [⟨.render_buffer_update two_pending.rs.vertex_buffer
          ((List.range 2).map two_pending.rs.vb.vb) (4 * (2 : Nat)), 2⟩,
       ⟨.render_draw .DRAW_TRIANGLE 0 (6 * (2 : Nat)), 2⟩] ∧
    (shader_flush two_pending).rs.vb.object = 0 ∧
    (shader_flush two_pending).rs.current_program = two_pending.rs.current_program ∧
    (shader_flush two_pending).rs.program = two_pending.rs.program ∧
    (shader_flush two_pending).rs.tex = two_pending.rs.tex ∧
    (shader_flush two_pending).rs.blendchange = two_pending.rs.blendchange ∧
    (shader_flush two_pending).rs =
      { two_pending.rs with drawcall := two_pending.rs.drawcall + 1,
                            vb := { two_pending.rs.vb with object := 0 } } :=
  (shader_flush_contract two_pending).2.1 2 (by decide) (by decide) (by decide) (by decide)

/-! ## Uniform offsets -/

theorem rs_commit_program (s : Machine) : (rs_commit s).rs.program = s.rs.program := by
  unfold rs_commit
  by_cases h : s.rs.vb.object = 0
  · simp [h]
  · simp [h, renderbuffer_commit, issue]

theorem shader_program_table (s s1 : Machine) (n : Int) (h : shader_program s n = .ok s1) (i : Nat) :
    (s1.rs.program i).uniform = (s.rs.program i).uniform ∧
    (s1.rs.program i).uniform_number = (s.rs.program i).uniform_number ∧
    (s1.rs.program i).texture_number = (s.rs.program i).texture_number ∧
    (s1.rs.program i).prog = (s.rs.program i).prog := by
  unfold shader_program at h
  dsimp only at h
  split_ifs at h with h1 h2
  · simp only [Except.ok.injEq] at h
    subst h
    by_cases hi : i = n.toNat
    · subst hi
      simp [issue, rs_commit_program]
    · simp [issue, rs_commit_program, Function.update_noteq hi]
  · cases h
    exact ⟨rfl, rfl, rfl, rfl⟩

theorem packed_offset_succ (types : List UNIFORM_FORMAT) (i : Nat) (x : UNIFORM_FORMAT)
    (h : types.get? i = some x) :
    packed_offset types (i + 1) = packed_offset types i + shader_uniformsize x := by
  unfold packed_offset
  rw [List.take_succ]
  simp only [List.get?_eq_getElem?] at h
  simp [h]

theorem packed_offset_append (types : List UNIFORM_FORMAT) (t : UNIFORM_FORMAT) (i : Nat)
    (h : i ≤ types.length) : packed_offset (types ++ [t]) i = packed_offset types i := by
  unfold packed_offset
  rw [List.take_append_of_le_length h]

theorem packed_congr (p q : program) (j : Nat) (types : List UNIFORM_FORMAT)
    (hu : q.uniform = p.uniform) (hn : q.uniform_number = p.uniform_number)
    (hp : packed p j types) : packed q j types :=
  ⟨hp.len, by rw [hn]; exact hp.number, fun i hi => by rw [hu]; exact hp.slot i hi⟩

theorem packed_next (p : program) (j : Nat) (types : List UNIFORM_FORMAT) (hp : packed p j types) :
    (if (j : Int) = 0 then (0 : Int)
      else (p.uniform ((j : Int) - 1).toNat).offset +
        shader_uniformsize (p.uniform ((j : Int) - 1).toNat).type) = packed_offset types j := by
  by_cases h0 : j = 0
  · subst h0
    simp [packed_offset]
  · have hcast : ¬ ((j : Int) = 0) := by omega
    rw [if_neg hcast]
    obtain ⟨k, rfl⟩ : ∃ k, j = k + 1 := ⟨j - 1, by omega⟩
    have hk : ((((k + 1 : Nat) : Int)) - 1).toNat = k := by omega
    rw [hk]
    obtain ⟨ho, ht⟩ := hp.slot k (by omega)
    rw [packed_offset_succ types k _ ht, ho]

theorem packed_push (p : program) (j : Nat) (types : List UNIFORM_FORMAT) (hp : packed p j types)
    (loc : Int) (t : UNIFORM_FORMAT) (off : Int) (hoff : off = packed_offset types j) :
    packed { p with uniform_number := p.uniform_number + 1,
                    uniform := Function.update p.uniform j ⟨loc, off, t⟩ }
      (j + 1) (types ++ [t]) := by
  refine ⟨by simp [hp.len], by simp only [hp.number]; push_cast; ring, ?_⟩
  intro i hi
  by_cases hij : i = j
  · subst hij
    simp only [Function.update_same]
    refine ⟨?_, by simp [hp.len]⟩
    rw [packed_offset_append _ _ _ (by rw [hp.len]), hoff]
  · have hlt : i < j := by omega
    obtain ⟨ho, ht⟩ := hp.slot i hlt
    simp only [Function.update_noteq hij]
    refine ⟨?_, ?_⟩
    · rw [packed_offset_append _ _ _ (by rw [hp.len]; omega)]
      exact ho
    · rw [← ht]
      simp only [List.get?_eq_getElem?]
      exact List.getElem?_append_left (by rw [hp.len]; exact hlt)

theorem shader_adduniform_packed (H : Host) (s s1 : Machine) (prog : Int) (name : String)
    (t : UNIFORM_FORMAT) (idx : Int) (j : Nat) (types : List UNIFORM_FORMAT)
    (hp : packed (s.rs.program prog.toNat) j types)
    (h : shader_adduniform H s prog name t = .ok (s1, idx)) (hidx : idx ≠ -1) :
    idx = (j : Int) ∧ j < 16 ∧ packed (s1.rs.program prog.toNat) (j + 1) (types ++ [t]) := by
  unfold shader_adduniform at h
  split_ifs at h with hrange
  simp only [bind, Except.bind] at h
  cases hsp : shader_program s prog with
  | error e => simp [hsp] at h
  | ok s2 =>
    obtain ⟨hu, hn, -, -⟩ := shader_program_table s s2 prog hsp prog.toNat
    have hp2 := packed_congr _ _ j types hu hn hp
    have hnext := packed_next _ j types hp2
    have hnum := hp2.number
    simp only [hsp] at h
    rw [hnum] at h
    by_cases hmax : (j : Int) < MAX_UNIFORM
    swap
    · rw [if_pos hmax] at h
      cases h
    rw [if_neg (not_not.2 hmax)] at h
    have hj16 : j < 16 := by simp only [MAX_UNIFORM] at hmax; omega
    by_cases hloc : H.render_shader_locuniform s2.dev name < 0
    · rw [if_pos hloc] at h
      simp only [pure, Except.pure, Except.ok.injEq, Prod.mk.injEq] at h
      exact absurd h.2.symm hidx
    · rw [if_neg hloc, if_neg (by omega)] at h
      simp only [pure, Except.pure, Except.ok.injEq, Prod.mk.injEq] at h
      obtain ⟨hs1, hidx1⟩ := h
      refine ⟨hidx1.symm, hj16, ?_⟩
      · subst hs1
        simp only [set_program, Function.update_same]
        have := packed_push _ j types hp2 (H.render_shader_locuniform s2.dev name) t _ hnext
        simpa [hnum] using this

theorem shader_load_packed (H : Host) (s0 s : Machine) (prog : Int) (fs vs : String) (texture : Int)
    (h : shader_load H s0 prog fs vs texture = .ok s) :
    packed (s.rs.program prog.toNat) 0 [] := by
  unfold shader_load at h
  split_ifs at h with hr
  simp only [Except.ok.injEq] at h
  subst h
  refine ⟨rfl, ?_, fun i hi => absurd hi (Nat.not_lt_zero i)⟩
  simp [set_program, program_init, issue, program_zero]

theorem adduniforms_packed (H : Host) (prog : Int) :
    ∀ (decls : List (String × UNIFORM_FORMAT)) (s s1 : Machine) (idxs : List Int) (j : Nat)
      (types : List UNIFORM_FORMAT), j ≤ 16 → packed (s.rs.program prog.toNat) j types →
      adduniforms H s prog decls = .ok (s1, idxs) → (∀ i ∈ idxs, i ≠ -1) →
      idxs = (List.range' j decls.length).map Int.ofNat ∧ j + decls.length ≤ 16 ∧
      packed (s1.rs.program prog.toNat) (j + decls.length) (types ++ decls.map Prod.snd) := by
  intro decls
  induction decls with
  | nil =>
    intro s s1 idxs j types hj hp h _
    simp only [adduniforms, Except.ok.injEq, Prod.mk.injEq] at h
    obtain ⟨rfl, rfl⟩ := h
    simpa using ⟨hj, hp⟩
  | cons d rest ih =>
    intro s s1 idxs j types _ hp h hsucc
    simp only [adduniforms, bind, Except.bind] at h
    cases h1 : shader_adduniform H s prog d.1 d.2 with
    | error e => simp [h1] at h
    | ok r =>
      obtain ⟨s2, idx⟩ := r
      simp only [h1] at h
      cases h2 : adduniforms H s2 prog rest with
      | error e => simp [h2] at h
      | ok r2 =>
        obtain ⟨s3, idxs2⟩ := r2
        simp only [h2, pure, Except.pure, Except.ok.injEq, Prod.mk.injEq] at h
        obtain ⟨rfl, rfl⟩ := h
        obtain ⟨hidx, hj, hp2⟩ := shader_adduniform_packed H s s2 prog d.1 d.2 idx j types hp h1
          (hsucc idx (List.mem_cons_self _ _))
        obtain ⟨hi, hlen, hp3⟩ := ih s2 s3 idxs2 (j + 1) (types ++ [d.2]) (by omega) hp2 h2
          (fun i hi => hsucc i (List.mem_cons_of_mem _ hi))
        refine ⟨?_, by simp only [List.length_cons]; omega, ?_⟩
        · simp only [List.length_cons, List.range'_succ, List.map_cons, hidx, hi]
          rfl
        · have e1 : j + (d :: rest).length = j + 1 + rest.length := by
            simp only [List.length_cons]; omega
          have e2 : types ++ List.map Prod.snd (d :: rest) = types ++ [d.2] ++ List.map Prod.snd rest := by
            simp
          rw [e1, e2]
          exact hp3

/-- C5. Uniform offset packing: after `shader_load` of a program, for every
sequence of `shader_adduniform` calls on it that all succeed (none returns
`-1`), there are at most 16 of them, the returned indices are `0, 1, 2, ...`
in registration order, the program then counts that many uniforms, and slot
`i` holds the declared type of the `i`-th call at an offset equal to the sum
of the element counts (`shader_uniformsize`) of slots `0..i-1`, so slot 0 is
at offset 0; for declared types `[vec4, mat4, scalar]` the offsets are
`[0, 4, 20]`. -/
theorem uniform_offset_packing (H : Host) (s0 s s1 : Machine) (prog : Int) (fs vs : String)
    (texture : Int) (decls : List (String × UNIFORM_FORMAT)) (idxs : List Int)
    (hload : shader_load H s0 prog fs vs texture = .ok s)
    (hrun : adduniforms H s prog decls = .ok (s1, idxs))
    (hsucc : ∀ i ∈ idxs, i ≠ -1) :
    decls.length ≤ 16 ∧
    idxs = (List.range decls.length).map Int.ofNat ∧
    (s1.rs.program prog.toNat).uniform_number = (decls.length : Int) ∧
    (∀ i, i < decls.length →
      ((s1.rs.program prog.toNat).uniform i).offset =
        ((decls.take i).map (fun d => shader_uniformsize d.2)).sum ∧
      (decls.get? i).map Prod.snd = some ((s1.rs.program prog.toNat).uniform i).type) ∧
    (0 < decls.length → ((s1.rs.program prog.toNat).uniform 0).offset = 0) ∧
    (decls.map Prod.snd = [UNIFORM_FLOAT4, UNIFORM_FLOAT44, UNIFORM_FLOAT1] →
      (List.range 3).map (fun i => ((s1.rs.program prog.toNat).uniform i).offset) = [0, 4, 20]) := by
  obtain ⟨hi, hlen, hp⟩ := adduniforms_packed H prog decls s s1 idxs 0 [] (by omega)
    (shader_load_packed H s0 s prog fs vs texture hload) hrun hsucc
  simp only [Nat.zero_add, List.nil_append] at hlen hp
  have hslot : ∀ i, i < decls.length →
      ((s1.rs.program prog.toNat).uniform i).offset =
        ((decls.take i).map (fun d => shader_uniformsize d.2)).sum ∧
      (decls.get? i).map Prod.snd = some ((s1.rs.program prog.toNat).uniform i).type := by
    intro i hlt
    obtain ⟨ho, ht⟩ := hp.slot i hlt
    refine ⟨?_, ?_⟩
    · rw [ho]
      simp only [packed_offset, List.map_take, List.map_map]
      rfl
    · rw [← ht]
      simp
  refine ⟨hlen, ?_, hp.number, hslot, ?_, ?_⟩
  · rw [hi, List.range_eq_range']
  · intro hpos
    have := (hslot 0 hpos).1
    simpa using this
  · intro htypes
    have hl : decls.length = 3 := by
      have := congrArg List.length htypes
      simpa using this
    have h0 := (hp.slot 0 (by omega)).1
    have h1 := (hp.slot 1 (by omega)).1
    have h2 := (hp.slot 2 (by omega)).1
    rw [htypes] at h0 h1 h2
    simp only [List.range, List.range.loop, List.map, h0, h1, h2]
    decide

theorem load0_ok : shader_load host0 (shader_init host0) 0 "fs" "vs" 1 = .ok loaded0 := rfl

theorem register0_ok : adduniforms host0 loaded0 0 decls0 = .ok (registered0, [0, 1, 2]) := rfl

/-- Witness for C5: registering vec4, mat4 and scalar on the freshly loaded
program 0 returns the indices 0, 1, 2 and stores the offsets 0, 4, 20. -/
theorem uniform_offset_packing_witness :
    adduniforms host0 loaded0 0 decls0 = .ok (registered0, [0, 1, 2]) ∧
    (List.range 3).map (fun i => ((registered0.rs.program 0).uniform i).offset) = [0, 4, 20] :=
  ⟨register0_ok,
   (uniform_offset_packing host0 (shader_init host0) loaded0 registered0 0 "fs" "vs" 1 decls0
      [0, 1, 2] load0_ok register0_ok (by decide)).2.2.2.2.2 rfl⟩

/-! ## Material footprint -/

theorem material_size_empty (H : Host) (s : Machine) (prog : Int)
    (hr : 0 ≤ prog ∧ prog < MAX_PROGRAM)
    (hu : (s.rs.program prog.toNat).uniform_number = 0)
    (ht : (s.rs.program prog.toNat).texture_number = 0) :
    material_size H s prog = .ok 0 := by
  unfold material_size
  have : ¬ (prog < 0 ∨ MAX_PROGRAM ≤ prog) := by omega
  simp [this, hu, ht]

theorem material_size_packed (H : Host) (s : Machine) (prog : Int) (j : Nat)
    (types : List UNIFORM_FORMAT) (hr : 0 ≤ prog ∧ prog < MAX_PROGRAM)
    (hp : packed (s.rs.program prog.toNat) j types) (hj : 0 < j) (hj16 : j ≤ 16) :
    material_size H s prog =
      .ok (H.sizeof_material + ((types.map shader_uniformsize).sum - 1) * H.sizeof_float) := by
  unfold material_size
  have h1 : ¬ (prog < 0 ∨ MAX_PROGRAM ≤ prog) := by omega
  have h2 : ¬ ((s.rs.program prog.toNat).uniform_number = 0 ∧
      (s.rs.program prog.toNat).texture_number = 0) := by
    rw [hp.number]; omega
  have h3 : ¬ ((s.rs.program prog.toNat).uniform_number - 1 < 0 ∨
      MAX_UNIFORM ≤ (s.rs.program prog.toNat).uniform_number - 1) := by
    rw [hp.number]; simp only [MAX_UNIFORM]; omega
  simp only [h1, h2, h3, if_false]
  obtain ⟨k, rfl⟩ : ∃ k, j = k + 1 := ⟨j - 1, by omega⟩
  have hk : ((s.rs.program prog.toNat).uniform_number - 1).toNat = k := by
    rw [hp.number]; omega
  obtain ⟨ho, ht⟩ := hp.slot k (by omega)
  have hsum := packed_offset_succ types k _ ht
  have hall : packed_offset types (k + 1) = (types.map shader_uniformsize).sum := by
    unfold packed_offset
    rw [List.take_of_length_le (by rw [hp.len])]
  rw [hk, ho, ← hsum, hall]

/-- C6, evaluated at the failing input: for the freshly loaded program 0,
which declares one texture and no uniform, `material_size` indexes
`p->uniform[-1]`. -/
theorem material_size_textures_only :
    (loaded0.rs.program 0).uniform_number = 0 ∧ (loaded0.rs.program 0).texture_number = 1 ∧
    material_size host0 loaded0 0 = .error .out_of_bounds :=
  ⟨rfl, rfl, rfl⟩

/-! ## Material storage -/

theorem splice_floats (dst v : List Nat) (o n : Nat) (h1 : o + n ≤ dst.length)
    (h2 : n ≤ v.length) :
    ((dst.take o ++ v.take n ++ dst.drop (o + n)).drop o).take n = v.take n ∧
    (dst.take o ++ v.take n ++ dst.drop (o + n)).take o = dst.take o ∧
    (dst.take o ++ v.take n ++ dst.drop (o + n)).drop (o + n) = dst.drop (o + n) ∧
    (dst.take o ++ v.take n ++ dst.drop (o + n)).length = dst.length := by
  have ho : (dst.take o).length = o := by rw [List.length_take]; omega
  have hn : (v.take n).length = n := by rw [List.length_take]; omega
  have hon : (dst.take o ++ v.take n).length = o + n := by rw [List.length_append, ho, hn]
  refine ⟨?_, ?_, ?_, ?_⟩
  · rw [List.append_assoc, List.drop_left' ho, List.take_left' hn]
  · rw [List.append_assoc, List.take_left' ho]
  · rw [List.drop_left' hon]
  · rw [List.length_append, hon, List.length_drop]; omega

/-- C7. Material isolation: for a material `m` whose program pointer is a
table slot, an index in `0..uniform_number-1` of a table of at most 16
uniforms and any value count `n`: when `n` differs from the element count of
the slot's type, `material_setuniform` returns 1 and the material is
returned as it was; when `n` equals it (the slot lying inside the storage of
`m` and `v` holding `n` floats), the call returns 0, the `n` floats of the
storage starting at the slot's offset are `v[0..n-1]`, and the floats before
and after them, the program pointer and the textures are as before. -/
theorem material_isolation (s : Machine) (m : material) (index n : Int) (v : List Nat)
    (hp : 0 ≤ m.p ∧ m.p < MAX_PROGRAM)
    (htab : (s.rs.program m.p.toNat).uniform_number ≤ MAX_UNIFORM)
    (hidx : 0 ≤ index ∧ index < (s.rs.program m.p.toNat).uniform_number) :
    (n ≠ shader_uniformsize ((s.rs.program m.p.toNat).uniform index.toNat).type →
      material_setuniform s m index n v = .ok (m, 1)) ∧
    (n = shader_uniformsize ((s.rs.program m.p.toNat).uniform index.toNat).type →
      0 ≤ ((s.rs.program m.p.toNat).uniform index.toNat).offset →
      ((s.rs.program m.p.toNat).uniform index.toNat).offset.toNat + n.toNat ≤ m.uniform.length →
      n.toNat ≤ v.length →
      ∃ m1, material_setuniform s m index n v = .ok (m1, 0) ∧
        (m1.uniform.drop ((s.rs.program m.p.toNat).uniform index.toNat).offset.toNat).take n.toNat
          = v.take n.toNat ∧
        m1.uniform.take ((s.rs.program m.p.toNat).uniform index.toNat).offset.toNat
          = m.uniform.take ((s.rs.program m.p.toNat).uniform index.toNat).offset.toNat ∧
        m1.uniform.drop (((s.rs.program m.p.toNat).uniform index.toNat).offset.toNat + n.toNat)
          = m.uniform.drop (((s.rs.program m.p.toNat).uniform index.toNat).offset.toNat + n.toNat) ∧
        m1.uniform.length = m.uniform.length ∧ m1.p = m.p ∧ m1.texture = m.texture) := by
  have h1 : ¬ (m.p < 0 ∨ MAX_PROGRAM ≤ m.p) := by omega
  have h2 : ¬ ¬ (index ≥ 0 ∧ index < (s.rs.program m.p.toNat).uniform_number) := by
    simp only [not_not]; exact ⟨hidx.1, hidx.2⟩
  have h3 : ¬ (MAX_UNIFORM ≤ index) := by omega
  constructor
  · intro hne
    unfold material_setuniform
    simp only [h1, h2, h3, if_false]
    rw [if_pos (fun h => hne h.symm)]
  · intro heq hoff hroom hv
    have hn0 : 0 ≤ n := by
      rw [heq]; cases ((s.rs.program m.p.toNat).uniform index.toNat).type <;> decide
    unfold material_setuniform
    simp only [h1, h2, h3, if_false]
    rw [if_neg (not_not.2 heq.symm)]
    unfold memcpy_floats
    have h4 : ¬ (((s.rs.program m.p.toNat).uniform index.toNat).offset < 0 ∨ n < 0) := by omega
    have h5 : ¬ (v.length < n.toNat ∨
        m.uniform.length < ((s.rs.program m.p.toNat).uniform index.toNat).offset.toNat + n.toNat) := by
      omega
    simp only [h4, h5, if_false, Except.map]
    obtain ⟨s1, s2, s3, s4⟩ := splice_floats m.uniform v
      ((s.rs.program m.p.toNat).uniform index.toNat).offset.toNat n.toNat hroom hv
    exact ⟨_, rfl, s1, s2, s3, s4, rfl, rfl⟩

/-- Witness for C7: on the program with slots vec4, mat4, scalar, four floats
are refused for the mat4 slot and stored for the vec4 slot. -/
theorem material_isolation_witness :
    material_setuniform registered0 mat0 1 4 [1, 2, 3, 4] = .ok (mat0, 1) ∧
    ∃ m1, material_setuniform registered0 mat0 0 4 [1, 2, 3, 4] = .ok (m1, 0) ∧
      (m1.uniform.drop 0).take 4 = [1, 2, 3, 4] ∧
      m1.uniform.take 0 = mat0.uniform.take 0 ∧
      m1.uniform.drop (0 + 4) = mat0.uniform.drop (0 + 4) ∧
      m1.uniform.length = mat0.uniform.length ∧ m1.p = mat0.p ∧ m1.texture = mat0.texture :=
  ⟨(material_isolation registered0 mat0 1 4 [1, 2, 3, 4] (by decide) (by decide) (by decide)).1
      (by decide),
   (material_isolation registered0 mat0 0 4 [1, 2, 3, 4] (by decide) (by decide) (by decide)).2
      (by decide) (by decide) (by decide) (by decide)⟩

/-! ## Applying materials -/

theorem uniform_uploads_append (l1 l2 : List Issued) :
    uniform_uploads (l1 ++ l2) = uniform_uploads l1 ++ uniform_uploads l2 := by
  simp [uniform_uploads, List.filterMap_append]

theorem rs_commit_frame (s : Machine) :
    ∃ tl, (rs_commit s).dev = s.dev ++ tl ∧ uniform_uploads tl = [] := by
  by_cases h0 : s.rs.vb.object = 0
  · rw [rs_commit_empty s h0]
    exact ⟨[], by simp, rfl⟩
  · rw [rs_commit_nonempty s h0]
    exact ⟨_, rfl, rfl⟩

theorem shader_texture_frame (s : Machine) (id channel : Int)
    (hc : 0 ≤ channel ∧ channel < MAX_TEXTURE_CHANNEL) :
    ∃ s1, shader_texture s id channel = .ok s1 ∧ s1.rs.program = s.rs.program ∧
      ∃ tl, s1.dev = s.dev ++ tl ∧ uniform_uploads tl = [] := by
  unfold shader_texture
  dsimp only
  have h1 : ¬ ¬ (channel < MAX_TEXTURE_CHANNEL) := not_not.2 hc.2
  have h2 : ¬ (channel < 0) := by omega
  rw [if_neg h1, if_neg h2]
  split_ifs with h3
  · obtain ⟨tl, htl, hup⟩ := rs_commit_frame s
    refine ⟨_, rfl, ?_, tl ++ [⟨DevCall.render_set Target.TEXTURE (to_RID id) channel,
      (rs_commit s).rs.vb.object⟩], ?_, ?_⟩
    · simp [issue, rs_commit_program]
    · simp only [issue, htl, List.append_assoc]
    · rw [uniform_uploads_append, hup]
      rfl
  · exact ⟨s, rfl, rfl, [], by simp, rfl⟩

theorem apply_uniforms_list (p : program) (M : material) :
    ∀ (l : List Nat) (s : Machine), (∀ i ∈ l, i < 16) →
      l.foldlM (fun (s1 : Machine) (i : Nat) =>
        if MAX_UNIFORM ≤ Int.ofNat i then (Except.error Fault.out_of_bounds : Except Fault Machine)
        else
          let u := p.uniform i
          .ok (issue s1 (.render_shader_setuniform u.loc u.type
            (float_run M.uniform u.offset u.type)))) s =
      .ok { s with dev := s.dev ++ l.map (fun i =>
        ⟨.render_shader_setuniform (p.uniform i).loc (p.uniform i).type
          (float_run M.uniform (p.uniform i).offset (p.uniform i).type), s.rs.vb.object⟩) } := by
  intro l
  induction l with
  | nil => intro s _; simp [List.foldlM, pure, Except.pure]
  | cons i l ih =>
    intro s h
    have hi : ¬ (MAX_UNIFORM ≤ Int.ofNat i) := by
      have := h i (List.mem_cons_self _ _)
      simp only [MAX_UNIFORM, Int.ofNat_eq_coe]; omega
    simp only [List.foldlM, hi, if_false, bind, Except.bind]
    rw [ih _ (fun k hk => h k (List.mem_cons_of_mem _ hk))]
    simp [issue]

theorem apply_uniforms_eq (s : Machine) (p : program) (M : material)
    (hn : p.uniform_number ≤ MAX_UNIFORM) :
    apply_uniforms s p M =
      .ok { s with dev := s.dev ++ (List.range p.uniform_number.toNat).map (fun i =>
        ⟨.render_shader_setuniform (p.uniform i).loc (p.uniform i).type
          (float_run M.uniform (p.uniform i).offset (p.uniform i).type), s.rs.vb.object⟩) } := by
  unfold apply_uniforms
  apply apply_uniforms_list
  intro i hi
  have := List.mem_range.1 hi
  simp only [MAX_UNIFORM] at hn
  omega

theorem apply_textures_list (H : Host) (M : material) :
    ∀ (l : List Nat) (s : Machine), (∀ i ∈ l, i < 8) →
      ∃ s1, l.foldlM (fun (s1 : Machine) (i : Nat) =>
        if MAX_TEXTURE_CHANNEL ≤ Int.ofNat i then (Except.error Fault.out_of_bounds : Except Fault Machine)
        else
          let tex := M.texture i
          if tex ≥ 0 then
            let glid := H.texture_glid tex
            if glid ≠ 0 then shader_texture s1 (RID_to_int glid) (Int.ofNat i) else .ok s1
          else .ok s1) s = .ok s1 ∧ s1.rs.program = s.rs.program ∧
        ∃ tl, s1.dev = s.dev ++ tl ∧ uniform_uploads tl = [] := by
  intro l
  induction l with
  | nil => intro s _; exact ⟨s, rfl, rfl, [], by simp, rfl⟩
  | cons i l ih =>
    intro s h
    have hi8 := h i (List.mem_cons_self _ _)
    have hi : ¬ (MAX_TEXTURE_CHANNEL ≤ Int.ofNat i) := by
      simp only [MAX_TEXTURE_CHANNEL, Int.ofNat_eq_coe]; omega
    have hstep : ∃ s2, (if M.texture i ≥ 0 then
            if H.texture_glid (M.texture i) ≠ 0 then
              shader_texture s (RID_to_int (H.texture_glid (M.texture i))) (Int.ofNat i)
            else .ok s
          else (.ok s : Except Fault Machine)) = .ok s2 ∧ s2.rs.program = s.rs.program ∧
        ∃ tl, s2.dev = s.dev ++ tl ∧ uniform_uploads tl = [] := by
      split_ifs with ha hb
      · exact shader_texture_frame s _ _ (by
          simp only [MAX_TEXTURE_CHANNEL, Int.ofNat_eq_coe]; omega)
      · exact ⟨s, rfl, rfl, [], by simp, rfl⟩
      · exact ⟨s, rfl, rfl, [], by simp, rfl⟩
    obtain ⟨s2, h2, hp2, tl2, hd2, hu2⟩ := hstep
    obtain ⟨s3, h3, hp3, tl3, hd3, hu3⟩ := ih s2 (fun k hk => h k (List.mem_cons_of_mem _ hk))
    refine ⟨s3, ?_, by rw [hp3, hp2], tl2 ++ tl3, by rw [hd3, hd2, List.append_assoc], ?_⟩
    · simp only [List.foldlM, hi, if_false, bind, Except.bind]
      simp only [h2]
      exact h3
    · rw [uniform_uploads_append, hu2, hu3]
      rfl

theorem apply_textures_frame (H : Host) (s : Machine) (p : program) (M : material)
    (hn : p.texture_number ≤ MAX_TEXTURE_CHANNEL) :
    ∃ s1, apply_textures H s p M = .ok s1 ∧ s1.rs.program = s.rs.program ∧
      ∃ tl, s1.dev = s.dev ++ tl ∧ uniform_uploads tl = [] := by
  unfold apply_textures
  apply apply_textures_list
  intro i hi
  have := List.mem_range.1 hi
  simp only [MAX_TEXTURE_CHANNEL] at hn
  omega

theorem material_apply_cached (H : Host) (s : Machine) (prog : Int) (m : Nat) (M : material)
    (hm : m ≠ 0) (hprog : 0 ≤ prog ∧ prog < MAX_PROGRAM) (hinit : M.p = prog)
    (hc : (s.rs.program prog.toNat).material = m) :
    material_apply H s prog m M = .ok s := by
  unfold material_apply
  have h1 : ¬ (M.p < 0 ∨ MAX_PROGRAM ≤ M.p) := by rw [hinit]; omega
  have h2 : ¬ (M.p ≠ prog) := not_not.2 hinit
  have h3 : (s.rs.program M.p.toNat).material = m := by rw [hinit]; exact hc
  simp only [hm, h1, h2, h3, if_false, if_true]

theorem material_apply_fresh (H : Host) (s : Machine) (prog : Int) (m : Nat) (M : material)
    (hm : m ≠ 0) (hprog : 0 ≤ prog ∧ prog < MAX_PROGRAM) (hinit : M.p = prog)
    (hu : (s.rs.program prog.toNat).uniform_number ≤ MAX_UNIFORM)
    (ht : (s.rs.program prog.toNat).texture_number ≤ MAX_TEXTURE_CHANNEL)
    (hc : (s.rs.program prog.toNat).material ≠ m) :
    ∃ s1, material_apply H s prog m M = .ok s1 ∧
      (s1.rs.program prog.toNat).material = m ∧
      ∃ tl, s1.dev = s.dev ++ tl ∧
        uniform_uploads tl =
          (List.range (s.rs.program prog.toNat).uniform_number.toNat).map
            (slot_upload (s.rs.program prog.toNat) M) := by
  subst hinit
  unfold material_apply
  have h1 : ¬ (M.p < 0 ∨ MAX_PROGRAM ≤ M.p) := by omega
  simp only [hm, h1, hc, if_false, ne_eq, not_true_eq_false, bind, Except.bind]
  rw [apply_uniforms_eq _ _ _ hu]
  simp only
  obtain ⟨s3, h3, hp3, tl3, hd3, hu3⟩ := apply_textures_frame H
    { set_program s M.p.toNat { s.rs.program M.p.toNat with material := m } with
      dev := (set_program s M.p.toNat { s.rs.program M.p.toNat with material := m }).dev ++
        (List.range (s.rs.program M.p.toNat).uniform_number.toNat).map (fun i =>
          ⟨.render_shader_setuniform ((s.rs.program M.p.toNat).uniform i).loc
            ((s.rs.program M.p.toNat).uniform i).type
            (float_run M.uniform ((s.rs.program M.p.toNat).uniform i).offset
              ((s.rs.program M.p.toNat).uniform i).type),
            (set_program s M.p.toNat { s.rs.program M.p.toNat with material := m }).rs.vb.object⟩) }
    (s.rs.program M.p.toNat) M ht
  refine ⟨s3, h3, ?_, _, by rw [hd3, List.append_assoc]; rfl, ?_⟩
  · rw [hp3]
    simp [set_program]
  · rw [uniform_uploads_append, hu3, List.append_nil]
    simp only [uniform_uploads, List.filterMap_map]
    rw [← List.filterMap_eq_map]
    rfl

/-- C8. Material dedup: for a program id `prog` of the table (holding at most
16 uniforms and 8 texture slots) and a material `m` initialised against it,
two calls of `material_apply(prog, m)` in a row both return, the second one
issues no device call and leaves the render state as the first call left
it, and, `m` not being the cached material of `prog` before the first call,
the typed uniform uploads of the two calls together are exactly one upload
per uniform slot, in slot order. -/
theorem material_dedup (H : Host) (s : Machine) (prog : Int) (m : Nat) (M : material)
    (hm : m ≠ 0) (hprog : 0 ≤ prog ∧ prog < MAX_PROGRAM) (hinit : M.p = prog)
    (hu : (s.rs.program prog.toNat).uniform_number ≤ MAX_UNIFORM)
    (ht : (s.rs.program prog.toNat).texture_number ≤ MAX_TEXTURE_CHANNEL) :
    ∃ s1, material_apply H s prog m M = .ok s1 ∧
      material_apply H s1 prog m M = .ok s1 ∧
      ∃ tl, s1.dev = s.dev ++ tl ∧
        ((s.rs.program prog.toNat).material ≠ m →
          uniform_uploads tl =
            (List.range (s.rs.program prog.toNat).uniform_number.toNat).map
              (slot_upload (s.rs.program prog.toNat) M)) := by
  by_cases hc : (s.rs.program prog.toNat).material = m
  · have h1 := material_apply_cached H s prog m M hm hprog hinit hc
    exact ⟨s, h1, h1, [], by simp, fun h => absurd hc h⟩
  · obtain ⟨s1, h1, hcache, tl, hd, hup⟩ := material_apply_fresh H s prog m M hm hprog hinit hu ht hc
    exact ⟨s1, h1, material_apply_cached H s1 prog m M hm hprog hinit hcache, tl, hd, fun _ => hup⟩

/-- Witness for C8: applying `mat0` twice to the program with slots vec4,
mat4, scalar. -/
theorem material_dedup_witness :
    ∃ s1, material_apply host0 registered0 0 7 mat0 = .ok s1 ∧
      material_apply host0 s1 0 7 mat0 = .ok s1 ∧
      ∃ tl, s1.dev = registered0.dev ++ tl ∧
        ((registered0.rs.program 0).material ≠ 7 →
          uniform_uploads tl =
            (List.range (registered0.rs.program 0).uniform_number.toNat).map
              (slot_upload (registered0.rs.program 0) mat0)) :=
  material_dedup host0 registered0 0 7 mat0 (by decide) (by decide) rfl (by decide) (by decide)

/-- C9. Material identity guard: for a material `m` initialised against
program `A` and any program id `prog` other than `A`, `material_apply(prog,
m)` returns the state it was given: the device trace is not extended (no
uniform upload, no texture bind, no flush) and the render state, the
material caches of all programs included, is unchanged. -/
theorem material_identity_guard (H : Host) (s : Machine) (A prog : Int) (m : Nat) (M : material)
    (hm : m ≠ 0) (hinit : M.p = A) (hne : prog ≠ A) :
    material_apply H s prog m M = .ok s := by
  unfold material_apply
  have h2 : M.p ≠ prog := by rw [hinit]; exact fun h => hne h.symm
  simp only [hm, h2, if_false, ne_eq, not_false_eq_true, if_true]

/-- Witness for C9: `mat0` belongs to program 0 and is applied to program 1. -/
theorem material_identity_guard_witness :
    material_apply host0 registered0 1 7 mat0 = .ok registered0 :=
  material_identity_guard host0 registered0 0 1 7 mat0 (by decide) rfl (by decide)

/-- C10, as stated, fails: program 1 is current, `mat0` is bound to program
0, and `material_apply(0, mat0)` caches the material on program 0 and uploads
its three uniforms. -/
theorem material_apply_current_mismatch_counterexample :
    other_current.rs.current_program = 1 ∧ mat0.p = 0 ∧
    material_apply host0 other_current 0 7 mat0 = .ok after_mismatch ∧
    (other_current.rs.program 0).material = 0 ∧ (after_mismatch.rs.program 0).material = 7 ∧
    uniform_uploads (after_mismatch.dev.drop other_current.dev.length) =
      [(3, UNIFORM_FLOAT4, [0, 0, 0, 0]),
       (3, UNIFORM_FLOAT44, [0, 0, 0, 0, 0, 0, 0, 0, 0, 0, 0, 0, 0, 0, 0, 0]),
       (3, UNIFORM_FLOAT1, [0])] :=
  ⟨rfl, rfl, rfl, rfl, rfl, by decide⟩

/-- C10, amended. When the current program is `B` and the material `m` is
bound to a program `A` different from `B`, `material_apply(prog, m)` returns
the state it was given (no uniform upload, no state change) for every passed
program id `prog` other than `A`, in particular for `prog = B`. -/
theorem material_apply_current_mismatch (H : Host) (s : Machine) (A B prog : Int) (m : Nat)
    (M : material) (hm : m ≠ 0) (hcur : s.rs.current_program = B) (hinit : M.p = A)
    (hAB : A ≠ B) (hne : prog ≠ A) :
    material_apply H s prog m M = .ok s ∧ material_apply H s s.rs.current_program m M = .ok s := by
  have key : ∀ q : Int, q ≠ A → material_apply H s q m M = .ok s := by
    intro q hq
    unfold material_apply
    have h2 : M.p ≠ q := by rw [hinit]; exact fun h => hq h.symm
    simp only [hm, h2, if_false, ne_eq, not_false_eq_true, if_true]
  exact ⟨key prog hne, key _ (by rw [hcur]; exact fun h => hAB h.symm)⟩

/-- Witness for C10, amended: program 1 is current and `mat0`, bound to
program 0, is applied with the ids 2 and 1. -/
theorem material_apply_current_mismatch_witness :
    material_apply host0 other_current 2 7 mat0 = .ok other_current ∧
    material_apply host0 other_current other_current.rs.current_program 7 mat0 =
      .ok other_current :=
  material_apply_current_mismatch host0 other_current 0 1 2 7 mat0 (by decide) rfl rfl
    (by decide) (by decide)

/-! ## Restoring the default blend mode -/

theorem shader_defaultblend_flag (H : Host) (s : Machine) :
    (shader_defaultblend H s).rs.blendchange = 0 := by
  unfold shader_defaultblend
  by_cases h : s.rs.blendchange = 0
  · simp [h]
  · simp [h, issue]

/-- C11. Blend restore idempotence: in every state where `blendchange` is 0,
`shader_defaultblend` returns the state it was given, so it issues no device
call (no blend call, no flush) and the render state, the batch and the
draw-call counter included, is unchanged even when quads are pending; and in
every state, calling `shader_defaultblend` twice in a row gives the same
state and device trace as calling it once. -/
theorem shader_defaultblend_idempotent (H : Host) (s : Machine) :
    (s.rs.blendchange = 0 →
      shader_defaultblend H s = s ∧
      (shader_defaultblend H s).dev = s.dev ∧
      (shader_defaultblend H s).rs.vb.object = s.rs.vb.object ∧
      (shader_defaultblend H s).rs.drawcall = s.rs.drawcall) ∧
    shader_defaultblend H (shader_defaultblend H s) = shader_defaultblend H s := by
  have h1 : ∀ t : Machine, t.rs.blendchange = 0 → shader_defaultblend H t = t := by
    intro t ht
    unfold shader_defaultblend
    simp [ht]
  refine ⟨fun h => ?_, h1 _ (shader_defaultblend_flag H s)⟩
  rw [h1 s h]
  exact ⟨rfl, rfl, rfl, rfl⟩

/-- Witness for C11: with one quad pending and the default blend mode in
force, `shader_defaultblend` changes nothing. -/
theorem shader_defaultblend_idempotent_witness :
    (shader_defaultblend host0 unblended = unblended ∧
      (shader_defaultblend host0 unblended).dev = unblended.dev ∧
      (shader_defaultblend host0 unblended).rs.vb.object = unblended.rs.vb.object ∧
      (shader_defaultblend host0 unblended).rs.drawcall = unblended.rs.drawcall) ∧
    unblended.rs.vb.object = 1 :=
  ⟨(shader_defaultblend_idempotent host0 unblended).1 (by decide), by decide⟩

/-! ## The draw-call counter -/

theorem int_wrap_succ (x : Int) : int_wrap (int_wrap x + 1) = int_wrap (x + 1) := by
  unfold int_wrap
  omega

theorem bump_add (a b : Nat) (x : Int) : bump (a + b) x = bump b (bump a x) := by
  induction b with
  | zero => rfl
  | succ b ih =>
    show int_wrap (bump (a + b) x + 1) = int_wrap (bump b (bump a x) + 1)
    rw [ih]

theorem bump_from_zero (n : Nat) : bump n 0 = int_wrap (n : Int) := by
  induction n with
  | zero => rfl
  | succ n ih =>
    show int_wrap (bump n 0 + 1) = int_wrap (((n + 1 : Nat)) : Int)
    rw [ih, int_wrap_succ]
    push_cast
    rfl

theorem bump_small (n : Nat) (h : (n : Int) ≤ INT_MAX) : bump n 0 = (n : Int) := by
  rw [bump_from_zero]
  exact int_wrap_eq _ (by omega) (by simpa [INT_MAX] using h)

theorem counted_refl (s : Machine) : counted 0 s s :=
  ⟨[], by simp, by simp [draws, bump], by simp [draws, uploads]⟩

theorem counted_trans {k1 k2 : Nat} {s0 s1 s2 : Machine} (h1 : counted k1 s0 s1)
    (h2 : counted k2 s1 s2) : counted (k1 + k2) s0 s2 := by
  obtain ⟨t1, hd1, hc1, hu1⟩ := h1
  obtain ⟨t2, hd2, hc2, hu2⟩ := h2
  refine ⟨t1 ++ t2, by rw [hd2, hd1, List.append_assoc], ?_, ?_⟩
  · rw [hc2, hc1, draws_append, List.length_append, bump_add]
  · rw [uploads_append, draws_append, List.length_append, List.length_append, hu1, hu2]
    omega

theorem rs_commit_counted (s : Machine) : counted 0 s (rs_commit s) := by
  by_cases h0 : s.rs.vb.object = 0
  · rw [rs_commit_empty s h0]
    exact counted_refl s
  · rw [rs_commit_nonempty s h0]
    exact ⟨_, rfl, by simp [draws, bump], by simp [draws, uploads]⟩

theorem counted_quiet (k : Nat) (s0 s s1 : Machine) (c : DevCall) (h : counted k s0 s)
    (hd : s1.dev = s.dev ++ [⟨c, s.rs.vb.object⟩]) (hc : s1.rs.drawcall = s.rs.drawcall)
    (hq : draws [⟨c, s.rs.vb.object⟩] = [] ∧ uploads [⟨c, s.rs.vb.object⟩] = []) :
    counted k s0 s1 := by
  obtain ⟨tl, hdev, hcnt, hup⟩ := h
  refine ⟨tl ++ [⟨c, s.rs.vb.object⟩], by rw [hd, hdev, List.append_assoc], ?_, ?_⟩
  · rw [hc, hcnt, draws_append, hq.1, List.append_nil]
  · rw [uploads_append, draws_append, hq.1, hq.2, List.append_nil, List.append_nil, hup]

theorem shader_texture_counted (s s1 : Machine) (id channel : Int)
    (hs : shader_texture s id channel = .ok s1) : counted 0 s s1 := by
  unfold shader_texture at hs
  split_ifs at hs with h1 h2 h3
  · cases hs
    exact counted_quiet 0 s (rs_commit s) _ _ (rs_commit_counted s) rfl rfl ⟨rfl, rfl⟩
  · cases hs; exact counted_refl s

theorem shader_program_counted (s s1 : Machine) (n : Int)
    (hs : shader_program s n = .ok s1) : counted 0 s s1 := by
  unfold shader_program at hs
  split_ifs at hs with h1 h2
  · simp only [Except.ok.injEq] at hs
    subst hs
    exact counted_quiet 0 s (rs_commit s) _ _ (rs_commit_counted s) rfl rfl ⟨rfl, rfl⟩
  · cases hs; exact counted_refl s

theorem shader_defaultblend_counted (H : Host) (s : Machine) :
    counted 0 s (shader_defaultblend H s) := by
  unfold shader_defaultblend
  split_ifs with h1
  · exact counted_quiet 0 s (rs_commit s) _ _ (rs_commit_counted s) rfl rfl ⟨rfl, rfl⟩
  · exact counted_refl s

theorem shader_blend_counted (H : Host) (s : Machine) (m1 m2 : Int) :
    counted 0 s (shader_blend H s m1 m2) := by
  unfold shader_blend
  split_ifs with h1
  · exact counted_quiet 0 s (rs_commit s) _ _ (rs_commit_counted s) rfl rfl ⟨rfl, rfl⟩
  · exact counted_refl s

theorem shader_draw_counted (H : Host) (s : Machine) (vb : List vertex_pack) (c a : Nat) :
    counted 0 s (shader_draw H s vb c a) := by
  unfold shader_draw
  dsimp only
  split_ifs with h1
  · exact rs_commit_counted _
  · exact counted_refl s

theorem drawpolygon_loop_counted (H : Host) (vb : List vertex_pack) (c a : Nat) (n : Int) :
    ∀ (fuel : Nat) (s s1 : Machine) (i : Int),
      drawpolygon_loop H fuel s vb c a n i = .ok s1 → counted 0 s s1 := by
  intro fuel
  induction fuel with
  | zero => intro s s1 i hs; simp [drawpolygon_loop] at hs
  | succ k ih =>
    intro s s1 i hs
    unfold drawpolygon_loop at hs
    cases hq : draw_quad H s vb c a n i with
    | error e => simp [hq, bind, Except.bind] at hs
    | ok s2 =>
      simp only [hq, bind, Except.bind] at hs
      obtain ⟨q, rfl⟩ := draw_quad_ok H s s2 vb c a n i hq
      have h2 := shader_draw_counted H s q c a
      split_ifs at hs with hlt
      · exact counted_trans h2 (ih _ _ _ hs)
      · simp only [pure, Except.pure, Except.ok.injEq] at hs
        subst hs; exact h2

theorem step_counted (H : Host) (s s1 : Machine) (op : Op) (hs : step H s op = .ok s1) :
    counted 0 s s1 := by
  cases op with
  | program n => exact shader_program_counted s s1 n hs
  | texture id channel => exact shader_texture_counted s s1 id channel hs
  | blend m1 m2 =>
    simp only [step, Except.ok.injEq] at hs
    subst hs; exact shader_blend_counted H s m1 m2
  | defaultblend =>
    simp only [step, Except.ok.injEq] at hs
    subst hs; exact shader_defaultblend_counted H s
  | draw vb c a =>
    simp only [step, Except.ok.injEq] at hs
    subst hs; exact shader_draw_counted H s vb c a
  | drawpolygon n vb c a => exact drawpolygon_loop_counted H vb c a (n - 1) _ s s1 0 hs
  | flush =>
    simp only [step, Except.ok.injEq] at hs
    subst hs; exact rs_commit_counted s

theorem run_counted (H : Host) (ops : List Op) :
    ∀ (s s1 : Machine), run H s ops = .ok s1 → counted 0 s s1 := by
  induction ops with
  | nil =>
    intro s s1 hs
    simp only [run, List.foldlM, pure, Except.pure, Except.ok.injEq] at hs
    subst hs; exact counted_refl s
  | cons op ops ih =>
    intro s s1 hs
    simp only [run, List.foldlM] at hs
    cases hq : step H s op with
    | error e => simp [hq, bind, Except.bind] at hs
    | ok s2 =>
      simp only [hq, bind, Except.bind] at hs
      exact counted_trans (step_counted H s s2 op hq) (ih s2 s1 hs)

theorem run_append (H : Host) (ops1 ops2 : List Op) (s sm : Machine)
    (h1 : run H s ops1 = .ok sm) : run H s (ops1 ++ ops2) = run H sm ops2 := by
  simp only [run, List.foldlM_append, bind, Except.bind] at *
  rw [h1]

theorem shader_drawbuffer_counted (H : Host) (s s1 : Machine) (rb : render_buffer)
    (tx ty scale : Nat) (hs : shader_drawbuffer H s rb tx ty scale = .ok s1) :
    counted (if H.texture_glid rb.texid = 0 then 0 else 1) s s1 := by
  unfold shader_drawbuffer at hs
  dsimp only at hs
  by_cases hg : H.texture_glid rb.texid = 0
  · rw [if_pos hg] at hs
    rw [if_pos hg]
    cases hs
    exact rs_commit_counted s
  · rw [if_neg hg] at hs
    rw [if_neg hg]
    simp only [bind, Except.bind] at hs
    cases h2 : shader_texture (rs_commit s) (RID_to_int (H.texture_glid rb.texid)) 0 with
    | error e => simp [h2] at hs
    | ok s2 =>
      simp only [h2] at hs
      cases h3 : shader_program s2 H.PROGRAM_RENDERBUFFER with
      | error e => simp [h3] at hs
      | ok s3 =>
        simp only [h3] at hs
        split_ifs at hs with hb
        simp only [Except.ok.injEq] at hs
        subst hs
        have c2 := counted_trans (rs_commit_counted s) (shader_texture_counted _ s2 _ _ h2)
        have c3 := counted_trans c2 (shader_program_counted s2 s3 _ h3)
        show counted (0 + 0 + 0 + 1) s _
        refine counted_trans c3 ?_
        exact ⟨[⟨.render_set .VERTEXBUFFER rb.vbid 0, s3.rs.vb.object⟩,
            ⟨.render_shader_setuniform (s3.rs.program s3.rs.current_program.toNat).st
              UNIFORM_FLOAT4 [(H.screen_trans scale scale).1, (H.screen_trans scale scale).2,
                (H.screen_trans tx ty).1, (H.screen_trans tx ty).2], s3.rs.vb.object⟩,
            ⟨.render_draw .DRAW_TRIANGLE 0 (6 * rb.object), s3.rs.vb.object⟩,
            ⟨.render_set .VERTEXBUFFER s3.rs.vertex_buffer 0, s3.rs.vb.object⟩],
            by simp [issue, renderbuffer_commit], rfl, rfl⟩

theorem run_calls_counted (H : Host) (calls : List Call) :
    ∀ (s s1 : Machine), run_calls H s calls = .ok s1 →
      counted (drawbuffer_calls H calls) s s1 := by
  induction calls with
  | nil =>
    intro s s1 hs
    simp only [run_calls, List.foldlM, pure, Except.pure, Except.ok.injEq] at hs
    subst hs; exact counted_refl s
  | cons c calls ih =>
    intro s s1 hs
    simp only [run_calls, List.foldlM] at hs
    cases hq : call_step H s c with
    | error e => simp [hq, bind, Except.bind] at hs
    | ok s2 =>
      simp only [hq, bind, Except.bind] at hs
      have h2 := ih s2 s1 hs
      cases c with
      | op o =>
        have h1 := step_counted H s s2 o hq
        simpa [drawbuffer_calls] using counted_trans h1 h2
      | drawbuffer rb tx ty scale =>
        exact counted_trans (shader_drawbuffer_counted H s s2 rb tx ty scale hq) h2

theorem run_calls_append (H : Host) (calls1 calls2 : List Call) (s sm : Machine)
    (h1 : run_calls H s calls1 = .ok sm) :
    run_calls H s (calls1 ++ calls2) = run_calls H sm calls2 := by
  simp only [run_calls, List.foldlM_append, bind, Except.bind] at *
  rw [h1]

theorem run_calls_op (H : Host) (ops : List Op) :
    ∀ (s : Machine), run_calls H s (ops.map Call.op) = run H s ops := by
  induction ops with
  | nil => intro s; rfl
  | cons o ops ih =>
    intro s
    simp only [run_calls, run, List.map, List.foldlM, call_step]
    cases hq : step H s o with
    | error e => rfl
    | ok s2 => exact ih s2

theorem drawbuffer_calls_op (H : Host) (ops : List Op) :
    drawbuffer_calls H (ops.map Call.op) = 0 := by
  induction ops with
  | nil => rfl
  | cons o ops ih => simpa [drawbuffer_calls] using ih

theorem run_pump (n : Nat) : ∀ (s : Machine), s.rs.vb.object = 0 →
    ∃ s1, run host0 s (pump n) = .ok s1 ∧ s1.rs.vb.object = 0 ∧
      s1.rs.drawcall = bump n s.rs.drawcall := by
  induction n with
  | zero => intro s h; exact ⟨s, rfl, h, rfl⟩
  | succ n ih =>
    intro s h
    have hd : shader_draw host0 s square 0 0 =
        shader_draw host0 s (quad.mk square 0 0).vb (quad.mk square 0 0).color
          (quad.mk square 0 0).additive := rfl
    have hroom : s.rs.vb.object + 1 ≠ host0.MAX_COMMBINE := by
      rw [h]; decide
    have hstep : run host0 s (pump (n + 1)) =
        run host0 (rs_commit (shader_draw host0 s square 0 0)) (pump n) := rfl
    have hc2 : (rs_commit (shader_draw host0 s square 0 0)).rs.drawcall =
        int_wrap (s.rs.drawcall + 1) := by
      rw [hd, shader_draw_room host0 rfl s _ hroom, rs_commit_nonempty _ (by simp)]
    obtain ⟨s1, hrun, ho, hc⟩ := ih _ (rs_commit_object (shader_draw host0 s square 0 0))
    refine ⟨s1, hstep.trans hrun, ho, ?_⟩
    rw [hc, hc2, Nat.add_comm n 1, bump_add]
    rfl

/-- C12, as stated, fails on two call sequences after
`reset_drawcall_count`.  First, `shader_drawbuffer` is
a draw call of the interface that increments the counter itself: called
right after the reset, with an empty batch, it leaves `drawcall_count` at 1
although no flush found a non-empty batch (no vertex upload was issued, the
one indexed draw of 18 indices is the buffer's own).  Second, the counter is
a C `int`: after 2147483647 repetitions of `shader_draw`, `shader_flush` it
reads 2147483647, and one more repetition overflows it; in a build where the
overflow wraps it then reads -2147483648, which is neither the number of
draws nor at least the earlier reading. -/
theorem drawcall_counter_counterexample :
    (run_calls host0 reset0 [.drawbuffer ext_buffer 0 0 0] = .ok after_drawbuffer ∧
      reset0.rs.vb.object = 0 ∧
      drawcall_count (some reset0) = 0 ∧
      drawcall_count (some after_drawbuffer) = 1 ∧
      uploads (after_drawbuffer.dev.drop reset0.dev.length) = [] ∧
      draws (after_drawbuffer.dev.drop reset0.dev.length) = [18]) ∧
    (∃ sm s1, run host0 reset0 (pump 2147483647) = .ok sm ∧
      run host0 reset0 (pump 2147483647 ++ [.draw square 0 0, .flush]) = .ok s1 ∧
      drawcall_count (some sm) = 2147483647 ∧
      drawcall_count (some s1) = -2147483648) := by
  refine ⟨⟨rfl, rfl, rfl, by decide, by decide, by decide⟩, ?_⟩
  obtain ⟨sm, hrun, ho, hc⟩ := run_pump 2147483647 reset0 rfl
  obtain ⟨s1, hrun1, -, hc1⟩ := run_pump 1 sm ho
  have h0 : reset0.rs.drawcall = 0 := rfl
  have hm : sm.rs.drawcall = 2147483647 := by
    rw [hc, h0, bump_from_zero]
    exact int_wrap_eq _ (by norm_num) (by norm_num)
  refine ⟨sm, s1, hrun, ?_, hm, ?_⟩
  · rw [run_append host0 _ _ reset0 sm hrun]
    exact hrun1
  · show s1.rs.drawcall = -2147483648
    rw [hc1, hm]
    show int_wrap (2147483647 + 1) = -2147483648
    unfold int_wrap
    norm_num

/-- C12, amended. Draw-call counter: after `reset_drawcall_count`, for every
sequence of `shader_program`, `shader_texture`, `shader_blend`,
`shader_defaultblend`, `shader_draw`, `shader_drawpolygon`, `shader_flush`
and `shader_drawbuffer` calls that runs to its end, the number of indexed
draws issued to the device since the reset is the number of vertex uploads,
one per flush that found a non-empty batch, plus the number of
`shader_drawbuffer` calls that reached their draw; `drawcall_count` returns
that number of draws as a C `int`, hence exactly that number as long as it is
at most `INT_MAX`; within that bound the counter read after a prefix of the
sequence is non-negative and never larger than the one read after the whole
sequence; and right after the reset it reads 0. -/
theorem drawcall_counter (H : Host) (s s0 s1 : Machine) (calls : List Call)
    (hreset : reset_drawcall_count (some s) = some s0) (hrun : run_calls H s0 calls = .ok s1) :
    drawcall_count (some s0) = 0 ∧
    ∃ tl, s1.dev = s.dev ++ tl ∧
      (draws tl).length = (uploads tl).length + drawbuffer_calls H calls ∧
      drawcall_count (some s1) = int_wrap ((draws tl).length : Int) ∧
      (((draws tl).length : Int) ≤ INT_MAX →
        drawcall_count (some s1) = ((draws tl).length : Int) ∧
        ∀ (calls1 calls2 : List Call) (sm : Machine), calls = calls1 ++ calls2 →
          run_calls H s0 calls1 = .ok sm →
          0 ≤ drawcall_count (some sm) ∧
          drawcall_count (some sm) ≤ drawcall_count (some s1)) := by
  simp only [reset_drawcall_count, Option.some.injEq] at hreset
  subst hreset
  refine ⟨rfl, ?_⟩
  obtain ⟨tl, hd, hc, hu⟩ := run_calls_counted H calls _ s1 hrun
  have hc0 : s1.rs.drawcall = bump (draws tl).length 0 := hc
  refine ⟨tl, hd, hu, ?_, ?_⟩
  · show s1.rs.drawcall = _
    rw [hc0, bump_from_zero]
  · intro hle
    have hs1 : s1.rs.drawcall = ((draws tl).length : Int) := by
      rw [hc0]
      exact bump_small _ hle
    refine ⟨hs1, ?_⟩
    intro calls1 calls2 sm hsplit h1
    subst hsplit
    rw [run_calls_append H calls1 calls2 _ sm h1] at hrun
    obtain ⟨t1, hd1, hc1, -⟩ := run_calls_counted H calls1 _ sm h1
    obtain ⟨t2, hd2, -, -⟩ := run_calls_counted H calls2 sm s1 hrun
    have hc10 : sm.rs.drawcall = bump (draws t1).length 0 := hc1
    have htl : tl = t1 ++ t2 := by
      have h3 : s.dev ++ tl = s.dev ++ (t1 ++ t2) := by
        have h4 : s1.dev = s.dev ++ (t1 ++ t2) := by
          rw [hd2, hd1, List.append_assoc]
        rw [← h4]
        exact hd.symm
      exact List.append_cancel_left h3
    have hlen : (draws tl).length = (draws t1).length + (draws t2).length := by
      rw [htl, draws_append, List.length_append]
    have hle1 : (((draws t1).length : Nat) : Int) ≤ INT_MAX := by
      have : (((draws t1).length : Nat) : Int) ≤ ((draws tl).length : Int) := by
        rw [hlen]; push_cast; omega
      exact le_trans this hle
    have hsm : sm.rs.drawcall = ((draws t1).length : Int) := by
      rw [hc10]
      exact bump_small _ hle1
    show 0 ≤ sm.rs.drawcall ∧ sm.rs.drawcall ≤ s1.rs.drawcall
    rw [hsm, hs1, hlen]
    push_cast
    omega

theorem run_calls4 : run_calls host0 reset0 calls4 = .ok after_calls4 := rfl

/-- Witness for C12: after the reset, three state changes that each find one
quad in the batch give a counter of 3, and a `shader_drawbuffer` call after
them gives 4, with four draws and three uploads in the trace. -/
theorem drawcall_counter_witness :
    (drawcall_count (some reset0) = 0 ∧
    ∃ tl, after_calls4.dev = (shader_init host0).dev ++ tl ∧
      (draws tl).length = (uploads tl).length + drawbuffer_calls host0 calls4 ∧
      drawcall_count (some after_calls4) = int_wrap ((draws tl).length : Int) ∧
      (((draws tl).length : Int) ≤ INT_MAX →
        drawcall_count (some after_calls4) = ((draws tl).length : Int) ∧
        ∀ (calls1 calls2 : List Call) (sm : Machine), calls4 = calls1 ++ calls2 →
          run_calls host0 reset0 calls1 = .ok sm →
          0 ≤ drawcall_count (some sm) ∧
          drawcall_count (some sm) ≤ drawcall_count (some after_calls4))) ∧
    run_calls host0 reset0 (ops3.map Call.op) = .ok after_ops3 ∧
    drawcall_count (some after_ops3) = 3 ∧
    draws (after_ops3.dev.drop (shader_init host0).dev.length) = [6, 6, 6] ∧
    drawcall_count (some after_calls4) = 4 ∧
    draws (after_calls4.dev.drop (shader_init host0).dev.length) = [6, 6, 6, 18] ∧
    (uploads (after_calls4.dev.drop (shader_init host0).dev.length)).length = 3 ∧
    drawbuffer_calls host0 calls4 = 1 :=
  ⟨drawcall_counter host0 (shader_init host0) reset0 after_calls4 calls4 rfl run_calls4, rfl,
    by decide, by decide, by decide, by decide, by decide, by decide⟩

/-! ## Failed uniform registration -/

theorem shader_program_ok (s : Machine) (n : Int) (hr : 0 ≤ n ∧ n < MAX_PROGRAM) :
    ∃ s1, shader_program s n = .ok s1 := by
  unfold shader_program
  dsimp only
  split_ifs with ha hb
  · omega
  · exact ⟨_, rfl⟩
  · exact ⟨_, rfl⟩

theorem shader_program_current (s : Machine) (n : Int) (h : s.rs.current_program = n) :
    shader_program s n = .ok s := by
  unfold shader_program
  simp [h]

/-- C13, as stated, fails: in `busy` program 1 is current, one quad is
pending and program 0 has a cached material; a registration on program 0
whose name the device does not resolve returns `-1` after having flushed the
batch, switched to program 0 and cleared its material cache. -/
theorem shader_adduniform_unresolved_counterexample :
    shader_adduniform host1 busy 0 "missing" UNIFORM_FLOAT1 = .ok (after_failed, -1) ∧
    busy.rs.current_program = 1 ∧ after_failed.rs.current_program = 0 ∧
    busy.rs.vb.object = 1 ∧ after_failed.rs.vb.object = 0 ∧
    after_failed.rs.drawcall = busy.rs.drawcall + 1 ∧
    (busy.rs.program 0).material = 7 ∧ (after_failed.rs.program 0).material = 0 :=
  ⟨rfl, rfl, rfl, rfl, rfl, rfl, rfl, rfl⟩

/-- C13, amended. For an in-range program id whose table has room and a name
the device fails to resolve, `shader_adduniform` returns `-1` and leaves the
uniform count and the uniform slots of every program unchanged; the render
state it leaves is the one `shader_program(prog)` leaves, so it equals the
state before the call when `prog` was already the current program. -/
theorem shader_adduniform_unresolved (H : Host) (s : Machine) (prog : Int) (name : String)
    (t : UNIFORM_FORMAT) (hr : 0 ≤ prog ∧ prog < MAX_PROGRAM)
    (hroom : (s.rs.program prog.toNat).uniform_number < MAX_UNIFORM)
    (hloc : ∀ s1, shader_program s prog = .ok s1 → H.render_shader_locuniform s1.dev name < 0) :
    ∃ s1 s2, shader_program s prog = .ok s1 ∧
      shader_adduniform H s prog name t = .ok (s2, -1) ∧
      s2.rs = s1.rs ∧
      (∀ i, (s2.rs.program i).uniform_number = (s.rs.program i).uniform_number ∧
        (s2.rs.program i).uniform = (s.rs.program i).uniform) ∧
      (s.rs.current_program = prog → s2.rs = s.rs) := by
  obtain ⟨s1, h1⟩ := shader_program_ok s prog hr
  have hl := hloc s1 h1
  have htab := shader_program_table s s1 prog h1
  have hroom1 : (s1.rs.program prog.toNat).uniform_number < MAX_UNIFORM := by
    rw [(htab prog.toNat).2.1]; exact hroom
  have hcall : shader_adduniform H s prog name t =
      .ok (issue s1 (.render_shader_locuniform name), -1) := by
    unfold shader_adduniform
    have hr2 : ¬ ¬ (prog ≥ 0 ∧ prog < MAX_PROGRAM) := not_not.2 ⟨hr.1, hr.2⟩
    simp only [hr2, if_false, bind, Except.bind, h1]
    rw [if_neg (not_not.2 hroom1), if_pos hl]
    rfl
  refine ⟨s1, _, h1, hcall, rfl, ?_, ?_⟩
  · intro i
    exact ⟨(htab i).2.1, (htab i).1⟩
  · intro hcur
    have := shader_program_current s prog hcur
    rw [h1] at this
    simp only [Except.ok.injEq] at this
    rw [this]
    rfl

/-- Witness for C13, amended: the failed registration is repeated in the
state the first one left, where program 0 is current. -/
theorem shader_adduniform_unresolved_witness :
    ∃ s1 s2, shader_program after_failed 0 = .ok s1 ∧
      shader_adduniform host1 after_failed 0 "missing" UNIFORM_FLOAT1 = .ok (s2, -1) ∧
      s2.rs = s1.rs ∧
      (∀ i, (s2.rs.program i).uniform_number = (after_failed.rs.program i).uniform_number ∧
        (s2.rs.program i).uniform = (after_failed.rs.program i).uniform) ∧
      (after_failed.rs.current_program = 0 → s2.rs = after_failed.rs) :=
  shader_adduniform_unresolved host1 after_failed 0 "missing" UNIFORM_FLOAT1 (by decide)
    (by decide) (fun _ _ => show (-1 : Int) < 0 by decide)

/-! ## Channel bounds -/

theorem material_settexture_high (m : material) (channel texture : Int)
    (h : MAX_TEXTURE_CHANNEL ≤ channel) : material_settexture m channel texture = .ok (m, 1) := by
  unfold material_settexture
  simp [h]

theorem material_settexture_in_range (m : material) (channel texture : Int)
    (h : 0 ≤ channel ∧ channel < MAX_TEXTURE_CHANNEL) :
    ∃ m1, material_settexture m channel texture = .ok (m1, 0) ∧
      m1.texture channel.toNat = texture ∧
      (∀ i, i ≠ channel.toNat → m1.texture i = m.texture i) ∧
      m1.p = m.p ∧ m1.uniform = m.uniform := by
  unfold material_settexture
  have h1 : ¬ (channel ≥ MAX_TEXTURE_CHANNEL) := by omega
  have h2 : ¬ (channel < 0) := by omega
  simp only [h1, h2, if_false]
  exact ⟨_, rfl, by simp, fun i hi => by simp [Function.update_noteq hi], rfl, rfl⟩

/-- C14, evaluated at the failing input: channel `-1` passes the only test
of `material_settexture`, `channel >= MAX_TEXTURE_CHANNEL`, and the store
`m->texture[-1] = texture` lies outside the array; no error code is
returned. -/
theorem material_settexture_negative :
    material_settexture mat0 (-1) 5 = .error .out_of_bounds ∧
    ¬ (MAX_TEXTURE_CHANNEL ≤ (-1 : Int)) ∧
    material_settexture mat0 8 5 = .ok (mat0, 1) :=
  ⟨rfl, by decide, rfl⟩

theorem shader_texture_high (s : Machine) (id channel : Int)
    (h : MAX_TEXTURE_CHANNEL ≤ channel) : shader_texture s id channel = .error .assertion := by
  unfold shader_texture
  have h1 : ¬ (channel < MAX_TEXTURE_CHANNEL) := by omega
  simp [h1]

/-- C15, evaluated at the failing input: channel `-1` satisfies
`assert(channel < MAX_TEXTURE_CHANNEL)`, so the call is not rejected by the
assertion and goes on to read `RS->tex[-1]`, outside the array; channel 8 is
rejected by the assertion. -/
theorem shader_texture_negative :
    shader_texture (shader_init host0) 5 (-1) = .error .out_of_bounds ∧
    (-1 : Int) < MAX_TEXTURE_CHANNEL ∧
    shader_texture (shader_init host0) 5 8 = .error .assertion :=
  ⟨rfl, by decide, rfl⟩

/-! ## The material cache across binds -/

theorem shader_program_switch (s : Machine) (n : Int) (hr : 0 ≤ n ∧ n < MAX_PROGRAM)
    (hne : s.rs.current_program ≠ n) :
    ∃ s1, shader_program s n = .ok s1 ∧
      s1.dev = (rs_commit s).dev ++
        [⟨.render_shader_bind (s.rs.program n.toNat).prog, (rs_commit s).rs.vb.object⟩] ∧
      s1.rs.current_program = n ∧
      (s1.rs.program n.toNat).material = 0 := by
  unfold shader_program
  dsimp only
  have h2 : ¬ (n < 0 ∨ MAX_PROGRAM ≤ n) := by omega
  rw [if_pos hne, if_neg h2]
  refine ⟨_, rfl, ?_, rfl, ?_⟩
  · simp [issue, rs_commit_program]
  · simp [issue]

theorem shader_reset_rs (H : Host) (s s1 : Machine) (h : shader_reset H s = .ok s1) :
    s1.rs = s.rs := by
  unfold shader_reset at h
  dsimp only at h
  split_ifs at h with h1 h2
  · cases h
  · simp only [Except.map, Except.ok.injEq] at h
    subst h
    rfl
  · simp only [Except.map, Except.ok.injEq] at h
    subst h
    rfl

/-- C16, as stated, fails for `shader_reset`: in `applied0` program 0 is
current with the material at address 7 cached; `shader_reset` binds the
shader of program 0 again, the cache still holds 7 afterwards, and applying
the same material again uploads nothing. -/
theorem material_cache_reset_counterexample :
    shader_reset host0 applied0 = .ok reset_applied0 ∧
    applied0.rs.current_program = 0 ∧
    (⟨.render_shader_bind (applied0.rs.program 0).prog, 0⟩ : Issued) ∈
      reset_applied0.dev.drop applied0.dev.length ∧
    (reset_applied0.rs.program 0).material = 7 ∧
    material_apply host0 reset_applied0 0 7 mat0 = .ok reset_applied0 :=
  ⟨rfl, rfl, by decide, rfl, rfl⟩

/-- C16, amended. When `shader_program` switches to a program it binds that
program's shader and leaves its `material` cache `NULL`, so the next
`material_apply` of any material of that program uploads every uniform slot
again; `shader_reset` leaves the whole render state, the material caches
included, as it was. -/
theorem material_cache_reset (H : Host) (s : Machine) (n : Int)
    (hr : 0 ≤ n ∧ n < MAX_PROGRAM) (hne : s.rs.current_program ≠ n) :
    (∃ s1, shader_program s n = .ok s1 ∧
      s1.dev = (rs_commit s).dev ++ [⟨.render_shader_bind (s.rs.program n.toNat).prog, 0⟩] ∧
      (s1.rs.program n.toNat).material = 0 ∧
      ∀ (m : Nat) (M : material), m ≠ 0 → M.p = n →
        (s.rs.program n.toNat).uniform_number ≤ MAX_UNIFORM →
        (s.rs.program n.toNat).texture_number ≤ MAX_TEXTURE_CHANNEL →
        ∃ s2 tl, material_apply H s1 n m M = .ok s2 ∧ s2.dev = s1.dev ++ tl ∧
          uniform_uploads tl =
            (List.range (s.rs.program n.toNat).uniform_number.toNat).map
              (slot_upload (s.rs.program n.toNat) M)) ∧
    (∀ s1, shader_reset H s = .ok s1 → s1.rs = s.rs) := by
  refine ⟨?_, fun s1 h => shader_reset_rs H s s1 h⟩
  obtain ⟨s1, h1, hdev, -, hmat⟩ := shader_program_switch s n hr hne
  obtain ⟨hu, hn, ht, -⟩ := shader_program_table s s1 n h1 n.toNat
  refine ⟨s1, h1, by rw [hdev, rs_commit_object], hmat, ?_⟩
  intro m M hm hp hun htn
  obtain ⟨s2, h2, -, tl, hd2, hup⟩ := material_apply_fresh H s1 n m M hm hr hp
    (by rw [hn]; exact hun) (by rw [ht]; exact htn) (by rw [hmat]; exact fun h => hm h.symm)
  refine ⟨s2, tl, h2, hd2, ?_⟩
  rw [hup, hn]
  apply List.map_congr_left
  intro i _
  simp only [slot_upload, hu]

/-- Witness for C16, amended: switching from program 1 to program 0, whose
cache held the material at address 7. -/
theorem material_cache_reset_witness :
    (∃ s1, shader_program after_mismatch 0 = .ok s1 ∧
      s1.dev = (rs_commit after_mismatch).dev ++
        [⟨.render_shader_bind (after_mismatch.rs.program (0 : Int).toNat).prog, 0⟩] ∧
      (s1.rs.program (0 : Int).toNat).material = 0 ∧
      ∀ (m : Nat) (M : material), m ≠ 0 → M.p = 0 →
        (after_mismatch.rs.program (0 : Int).toNat).uniform_number ≤ MAX_UNIFORM →
        (after_mismatch.rs.program (0 : Int).toNat).texture_number ≤ MAX_TEXTURE_CHANNEL →
        ∃ s2 tl, material_apply host0 s1 0 m M = .ok s2 ∧ s2.dev = s1.dev ++ tl ∧
          uniform_uploads tl =
            (List.range (after_mismatch.rs.program (0 : Int).toNat).uniform_number.toNat).map
              (slot_upload (after_mismatch.rs.program (0 : Int).toNat) M)) ∧
    (∀ s1, shader_reset host0 after_mismatch = .ok s1 → s1.rs = after_mismatch.rs) ∧
    (after_mismatch.rs.program 0).material = 7 :=
  ⟨(material_cache_reset host0 after_mismatch 0 (by decide) (by decide)).1,
   (material_cache_reset host0 after_mismatch 0 (by decide) (by decide)).2, rfl⟩

/-! ## Uniform uploads and the batch -/

theorem shader_setuniform_flushed (s s1 : Machine) (index : Int) (t : UNIFORM_FORMAT)
    (v : List Nat) (h : shader_setuniform s index t v = .ok s1) :
    ∃ loc, s1.dev = (rs_commit s).dev ++ [⟨.render_shader_setuniform loc t (float_run v 0 t), 0⟩] ∧
      s1.rs = (rs_commit s).rs := by
  unfold shader_setuniform at h
  dsimp only at h
  split_ifs at h with h1 h2 h3 h4
  simp only [Except.ok.injEq] at h
  subst h
  refine ⟨(((rs_commit s).rs.program (rs_commit s).rs.current_program.toNat).uniform
    index.toNat).loc, ?_, rfl⟩
  simp [issue, rs_commit_object]

/-- C19, evaluated at the failing input: in `busy0` one quad is pending;
`material_apply` issues its three uniform uploads while the batch still
holds that quad, and the quad is still pending afterwards. -/
theorem material_apply_pending_batch :
    busy0.rs.vb.object = 1 ∧
    material_apply host0 busy0 0 7 mat0 = .ok applied_busy0 ∧
    applied_busy0.dev.drop busy0.dev.length =
      [⟨.render_shader_setuniform 3 UNIFORM_FLOAT4 [0, 0, 0, 0], 1⟩,
       ⟨.render_shader_setuniform 3 UNIFORM_FLOAT44
          [0, 0, 0, 0, 0, 0, 0, 0, 0, 0, 0, 0, 0, 0, 0, 0], 1⟩,
       ⟨.render_shader_setuniform 3 UNIFORM_FLOAT1 [0], 1⟩] ∧
    applied_busy0.rs.vb.object = 1 :=
  ⟨rfl, rfl, by decide, rfl⟩

/-! ## The batch is never left full -/

theorem rs_commit_roomy (M : Nat) (s : Machine) (hM : 0 < M) (hle : s.rs.vb.object ≤ M)
    (hf : ∀ e ∈ s.dev, fits M e) : roomy M (rs_commit s) := by
  refine ⟨by rw [rs_commit_object]; exact hM, ?_⟩
  by_cases h0 : s.rs.vb.object = 0
  · rw [rs_commit_empty s h0]; exact hf
  · rw [rs_commit_nonempty s h0]
    intro e he
    simp only [List.mem_append, List.mem_cons, List.mem_singleton, List.not_mem_nil,
      or_false] at he
    rcases he with he | rfl | rfl
    · exact hf e he
    · simp only [fits, pending_length]
      omega
    · simp only [fits]
      omega

theorem roomy_quiet (M : Nat) (s t : Machine) (c : DevCall) (k : Nat) (h : roomy M s)
    (hd : t.dev = s.dev ++ [⟨c, k⟩]) (ho : t.rs.vb.object = s.rs.vb.object)
    (hc : fits M ⟨c, k⟩) : roomy M t := by
  refine ⟨by rw [ho]; exact h.1, ?_⟩
  intro e he
  rw [hd] at he
  simp only [List.mem_append, List.mem_singleton] at he
  rcases he with he | rfl
  · exact h.2 e he
  · exact hc

theorem shader_texture_roomy (M : Nat) (hM : 0 < M) (s s1 : Machine) (id channel : Int)
    (h : roomy M s) (hs : shader_texture s id channel = .ok s1) : roomy M s1 := by
  unfold shader_texture at hs
  split_ifs at hs with h1 h2 h3
  · cases hs
    exact roomy_quiet M (rs_commit s) _ _ _ (rs_commit_roomy M s hM (le_of_lt h.1) h.2) rfl rfl
      (by simp [fits])
  · cases hs; exact h

theorem shader_program_roomy (M : Nat) (hM : 0 < M) (s s1 : Machine) (n : Int)
    (h : roomy M s) (hs : shader_program s n = .ok s1) : roomy M s1 := by
  unfold shader_program at hs
  split_ifs at hs with h1 h2
  · simp only [Except.ok.injEq] at hs
    subst hs
    exact roomy_quiet M (rs_commit s) _ _ _ (rs_commit_roomy M s hM (le_of_lt h.1) h.2) rfl rfl
      (by simp [fits])
  · cases hs; exact h

theorem shader_defaultblend_roomy (H : Host) (M : Nat) (hM : 0 < M) (s : Machine)
    (h : roomy M s) : roomy M (shader_defaultblend H s) := by
  unfold shader_defaultblend
  split_ifs with h1
  · exact roomy_quiet M (rs_commit s) _ _ _ (rs_commit_roomy M s hM (le_of_lt h.1) h.2) rfl rfl
      (by simp [fits])
  · exact h

theorem shader_blend_roomy (H : Host) (M : Nat) (hM : 0 < M) (s : Machine) (m1 m2 : Int)
    (h : roomy M s) : roomy M (shader_blend H s m1 m2) := by
  unfold shader_blend
  split_ifs with h1
  · exact roomy_quiet M (rs_commit s) _ _ _ (rs_commit_roomy M s hM (le_of_lt h.1) h.2) rfl rfl
      (by simp [fits])
  · exact h

theorem shader_draw_roomy (H : Host) (hadd : H.renderbuffer_add = renderbuffer_add H.MAX_COMMBINE)
    (hM : 0 < H.MAX_COMMBINE) (s : Machine) (vb : List vertex_pack) (c a : Nat)
    (h : roomy H.MAX_COMMBINE s) : roomy H.MAX_COMMBINE (shader_draw H s vb c a) := by
  have hq : shader_draw H s vb c a =
      shader_draw H s (quad.mk vb c a).vb (quad.mk vb c a).color (quad.mk vb c a).additive := rfl
  rw [hq]
  by_cases hfull : s.rs.vb.object + 1 = H.MAX_COMMBINE
  · rw [shader_draw_full H hadd s _ hfull]
    refine ⟨hM, ?_⟩
    intro e he
    simp only [List.mem_append, List.mem_cons, List.mem_singleton, List.not_mem_nil,
      or_false] at he
    rcases he with he | rfl | rfl
    · exact h.2 e he
    · simp only [fits, List.length_append, pending_length, List.length_singleton]
      omega
    · simp only [fits]
      omega
  · rw [shader_draw_room H hadd s _ hfull]
    refine ⟨?_, h.2⟩
    have := h.1
    show s.rs.vb.object + 1 < H.MAX_COMMBINE
    omega

theorem drawpolygon_loop_roomy (H : Host)
    (hadd : H.renderbuffer_add = renderbuffer_add H.MAX_COMMBINE) (hM : 0 < H.MAX_COMMBINE)
    (vb : List vertex_pack) (c a : Nat) (n : Int) :
    ∀ (fuel : Nat) (s s1 : Machine) (i : Int), roomy H.MAX_COMMBINE s →
      drawpolygon_loop H fuel s vb c a n i = .ok s1 → roomy H.MAX_COMMBINE s1 := by
  intro fuel
  induction fuel with
  | zero => intro s s1 i _ hs; simp [drawpolygon_loop] at hs
  | succ k ih =>
    intro s s1 i h hs
    unfold drawpolygon_loop at hs
    cases hq : draw_quad H s vb c a n i with
    | error e => simp [hq, bind, Except.bind] at hs
    | ok s2 =>
      simp only [hq, bind, Except.bind] at hs
      obtain ⟨q, rfl⟩ := draw_quad_ok H s s2 vb c a n i hq
      have h2 := shader_draw_roomy H hadd hM s q c a h
      split_ifs at hs with hlt
      · exact ih _ _ _ h2 hs
      · simp only [pure, Except.pure, Except.ok.injEq] at hs
        subst hs; exact h2

theorem step_roomy (H : Host) (hadd : H.renderbuffer_add = renderbuffer_add H.MAX_COMMBINE)
    (hM : 0 < H.MAX_COMMBINE) (s s1 : Machine) (op : Op) (h : roomy H.MAX_COMMBINE s)
    (hs : step H s op = .ok s1) : roomy H.MAX_COMMBINE s1 := by
  cases op with
  | program n => exact shader_program_roomy _ hM s s1 n h hs
  | texture id channel => exact shader_texture_roomy _ hM s s1 id channel h hs
  | blend m1 m2 =>
    simp only [step, Except.ok.injEq] at hs
    subst hs; exact shader_blend_roomy H _ hM s m1 m2 h
  | defaultblend =>
    simp only [step, Except.ok.injEq] at hs
    subst hs; exact shader_defaultblend_roomy H _ hM s h
  | draw vb c a =>
    simp only [step, Except.ok.injEq] at hs
    subst hs; exact shader_draw_roomy H hadd hM s vb c a h
  | drawpolygon n vb c a =>
    exact drawpolygon_loop_roomy H hadd hM vb c a (n - 1) _ s s1 0 h hs
  | flush =>
    simp only [step, Except.ok.injEq] at hs
    subst hs; exact rs_commit_roomy _ s hM (le_of_lt h.1) h.2

theorem run_roomy (H : Host) (hadd : H.renderbuffer_add = renderbuffer_add H.MAX_COMMBINE)
    (hM : 0 < H.MAX_COMMBINE) (ops : List Op) :
    ∀ (s s1 : Machine), roomy H.MAX_COMMBINE s → run H s ops = .ok s1 →
      roomy H.MAX_COMMBINE s1 := by
  induction ops with
  | nil =>
    intro s s1 h hs
    simp only [run, List.foldlM, pure, Except.pure, Except.ok.injEq] at hs
    subst hs; exact h
  | cons op ops ih =>
    intro s s1 h hs
    simp only [run, List.foldlM] at hs
    cases hq : step H s op with
    | error e => simp [hq, bind, Except.bind] at hs
    | ok s2 =>
      simp only [hq, bind, Except.bind] at hs
      exact ih s2 s1 (step_roomy H hadd hM s s2 op h hq) hs

theorem shader_init_roomy (H : Host) (hM : 0 < H.MAX_COMMBINE) :
    roomy H.MAX_COMMBINE (shader_init H) := by
  refine ⟨hM, ?_⟩
  intro e he
  simp [shader_init, issue] at he
  rcases he with rfl | rfl | rfl | rfl | rfl | rfl | rfl <;> simp [fits]

theorem shader_init_buffers (H : Host) :
    (⟨.render_buffer_create .INDEXBUFFER
        ((List.range (6 * H.MAX_COMMBINE)).map (fill_idxs H.MAX_COMMBINE)) (6 * H.MAX_COMMBINE), 0⟩ :
      Issued) ∈ (shader_init H).dev ∧
    (⟨.render_buffer_create .VERTEXBUFFER [] (4 * H.MAX_COMMBINE), 0⟩ : Issued) ∈
      (shader_init H).dev := by
  constructor <;> simp [shader_init, issue]

/-- C18. Batch never left full: with `renderbuffer_add` as section 4.2
describes it and `MAX_COMBINE > 0`, the batch holds fewer than `MAX_COMBINE`
quads in the initialised state and after every call of a sequence of
`shader_draw`, `shader_drawpolygon`, `shader_flush`, `shader_program`,
`shader_texture`, `shader_blend` and `shader_defaultblend` calls run from it;
every vertex upload of the trace brings at most `4*MAX_COMBINE` vertices and
every draw covers at most `6*MAX_COMBINE` indices, the sizes with which
`shader_init` created the vertex buffer and the index buffer. -/
theorem batch_never_full (H : Host) (hadd : H.renderbuffer_add = renderbuffer_add H.MAX_COMMBINE)
    (hM : 0 < H.MAX_COMMBINE) (ops : List Op) (s1 : Machine)
    (hrun : run H (shader_init H) ops = .ok s1) :
    (shader_init H).rs.vb.object < H.MAX_COMMBINE ∧
    s1.rs.vb.object < H.MAX_COMMBINE ∧
    (∀ (ops1 ops2 : List Op) (sm : Machine), ops = ops1 ++ ops2 →
      run H (shader_init H) ops1 = .ok sm → sm.rs.vb.object < H.MAX_COMMBINE) ∧
    (∀ e ∈ s1.dev, ∀ id data n, e.call = .render_buffer_update id data n →
      n ≤ 4 * (H.MAX_COMMBINE : Int) ∧ data.length ≤ H.MAX_COMMBINE) ∧
    (∀ e ∈ s1.dev, ∀ mode f ni, e.call = .render_draw mode f ni →
      ni ≤ 6 * (H.MAX_COMMBINE : Int)) ∧
    (⟨.render_buffer_create .VERTEXBUFFER [] (4 * H.MAX_COMMBINE), 0⟩ : Issued) ∈ s1.dev ∧
    (⟨.render_buffer_create .INDEXBUFFER
        ((List.range (6 * H.MAX_COMMBINE)).map (fill_idxs H.MAX_COMMBINE)) (6 * H.MAX_COMMBINE), 0⟩ :
      Issued) ∈ s1.dev := by
  have hinit := shader_init_roomy H hM
  have h1 := run_roomy H hadd hM ops _ s1 hinit hrun
  obtain ⟨tl, hdev, -, -⟩ := run_counted H ops _ s1 hrun
  obtain ⟨hib, hvb⟩ := shader_init_buffers H
  refine ⟨hinit.1, h1.1, ?_, ?_, ?_, ?_, ?_⟩
  · intro ops1 ops2 sm _ hsm
    exact (run_roomy H hadd hM ops1 _ sm hinit hsm).1
  · intro e he id data n hc
    have := h1.2 e he
    simp only [fits, hc] at this
    exact this
  · intro e he mode f ni hc
    have := h1.2 e he
    simp only [fits, hc] at this
    exact this
  · rw [hdev]; exact List.mem_append_left _ hvb
  · rw [hdev]; exact List.mem_append_left _ hib

/-- Witness for C18: the sequence `ops0` on the host with batches of two
quads. -/
theorem batch_never_full_witness :
    ((shader_init host0).rs.vb.object < 2 ∧
    after_ops0.rs.vb.object < 2 ∧
    (∀ (ops1 ops2 : List Op) (sm : Machine), ops0 = ops1 ++ ops2 →
      run host0 (shader_init host0) ops1 = .ok sm → sm.rs.vb.object < 2) ∧
    (∀ e ∈ after_ops0.dev, ∀ id data n, e.call = .render_buffer_update id data n →
      n ≤ 4 * ((2 : Nat) : Int) ∧ data.length ≤ 2) ∧
    (∀ e ∈ after_ops0.dev, ∀ mode f ni, e.call = .render_draw mode f ni →
      ni ≤ 6 * ((2 : Nat) : Int)) ∧
    (⟨.render_buffer_create .VERTEXBUFFER [] (4 * 2), 0⟩ : Issued) ∈ after_ops0.dev ∧
    (⟨.render_buffer_create .INDEXBUFFER
        ((List.range (6 * 2)).map (fill_idxs 2)) (6 * 2), 0⟩ : Issued) ∈ after_ops0.dev) ∧
    after_ops0.rs.vb.object = 0 :=
  ⟨batch_never_full host0 rfl (by decide) ops0 after_ops0 rfl, by decide⟩

/-! ## The index pattern and the fan -/

theorem fill_idxs_succ (M : Nat) :
    fill_idxs (M + 1) =
      Function.update (Function.update (Function.update (Function.update (Function.update
        (Function.update (fill_idxs M) (M * 6) ((M * 4) % 65536))
        (M * 6 + 1) ((M * 4 + 1) % 65536))
        (M * 6 + 2) ((M * 4 + 2) % 65536))
        (M * 6 + 3) ((M * 4) % 65536))
        (M * 6 + 4) ((M * 4 + 2) % 65536))
        (M * 6 + 5) ((M * 4 + 3) % 65536) := by
  simp only [fill_idxs, List.range_succ, List.foldl_append, List.foldl_cons, List.foldl_nil]

theorem fill_idxs_spec (M : Nat) :
    ∀ q e : Nat, q < M → e < 6 →
      fill_idxs M (q * 6 + e) =
        ([4 * q, 4 * q + 1, 4 * q + 2, 4 * q, 4 * q + 2, 4 * q + 3].getD e 0) % 65536 := by
  induction M with
  | zero => intro q e hq; omega
  | succ M ih =>
    intro q e hq he
    rw [fill_idxs_succ]
    by_cases hqM : q = M
    · subst hqM
      have h4 : q * 4 = 4 * q := by omega
      interval_cases e <;> simp [Function.update_apply, h4]
    · have hlt : q < M := by omega
      simp only [Function.update_apply]
      rw [if_neg (by omega), if_neg (by omega), if_neg (by omega), if_neg (by omega),
        if_neg (by omega), if_neg (by omega)]
      exact ih q e hlt he

theorem index_data_getD (M i : Nat) (h : i < 6 * M) :
    (index_data M).getD i 0 = fill_idxs M i := by
  unfold index_data
  rw [List.getD_eq_getElem _ _ (by simpa using h)]
  simp

theorem index_data_entry (M q e : Nat) (hq : q < M) (hfit : 4 * M ≤ 65536) (he : e < 6) :
    (index_data M).getD (6 * q + e) 0 =
      [4 * q, 4 * q + 1, 4 * q + 2, 4 * q, 4 * q + 2, 4 * q + 3].getD e 0 := by
  rw [index_data_getD M _ (by omega)]
  have := fill_idxs_spec M q e hq he
  have hc : q * 6 + e = 6 * q + e := by omega
  rw [hc] at this
  rw [this]
  apply Nat.mod_eq_of_lt
  interval_cases e <;> simp <;> omega

theorem index_data_slot (M q : Nat) (hq : q < M) (hfit : 4 * M ≤ 65536) :
    (List.range 6).map (fun e => (index_data M).getD (6 * q + e) 0) =
      [4 * q, 4 * q + 1, 4 * q + 2, 4 * q, 4 * q + 2, 4 * q + 3] := by
  simp only [List.range, List.range.loop, List.map]
  rw [index_data_entry M q 0 hq hfit (by omega), index_data_entry M q 1 hq hfit (by omega),
    index_data_entry M q 2 hq hfit (by omega), index_data_entry M q 3 hq hfit (by omega),
    index_data_entry M q 4 hq hfit (by omega), index_data_entry M q 5 hq hfit (by omega)]
  rfl

theorem index_triangles_slot (M q : Nat) (hq : q < M) (hfit : 4 * M ≤ 65536) :
    index_triangles (index_data M) q =
      [[4 * q, 4 * q + 1, 4 * q + 2], [4 * q, 4 * q + 2, 4 * q + 3]] := by
  have h0 := index_data_entry M q 0 hq hfit (by omega)
  have h1 := index_data_entry M q 1 hq hfit (by omega)
  have h2 := index_data_entry M q 2 hq hfit (by omega)
  have h3 := index_data_entry M q 3 hq hfit (by omega)
  have h4 := index_data_entry M q 4 hq hfit (by omega)
  have h5 := index_data_entry M q 5 hq hfit (by omega)
  simp only [Nat.add_zero] at h0
  unfold index_triangles
  rw [h0, h1, h2, h3, h4, h5]
  rfl

theorem flatMap_pairs (g : Nat → List Nat) (c : Nat) :
    (List.range c).flatMap (fun k => [g (2 * k), g (2 * k + 1)]) = (List.range (2 * c)).map g := by
  induction c with
  | zero => rfl
  | succ c ih =>
    have h2 : 2 * (c + 1) = (2 * c + 1) + 1 := by omega
    rw [List.range_succ, List.flatMap_append, ih, h2, List.range_succ, List.range_succ]
    simp

theorem fan_triangles_drawn_eq (M n : Nat) (slot : Nat → Nat) (hfit : 4 * M ≤ 65536)
    (hn : 3 ≤ n) (hslot : ∀ k, slot k < M) :
    fan_triangles_drawn (index_data M) n slot =
      fan_triangles n ++ (if n % 2 = 1 then [[0, n - 1, n - 1]] else []) := by
  unfold fan_triangles_drawn
  have hquad : ∀ k, (index_triangles (index_data M) (slot k)).map (fun tri =>
      tri.map (fun pos => (quad_indices n k).getD (pos - 4 * slot k) 0)) =
      [[0, min (2 * k + 1) (n - 1), min (2 * k + 1 + 1) (n - 1)],
       [0, min (2 * k + 1 + 1) (n - 1), min (2 * k + 1 + 2) (n - 1)]] := by
    intro k
    rw [index_triangles_slot M (slot k) (hslot k) hfit]
    simp [quad_indices]
  simp only [hquad]
  rw [flatMap_pairs (fun i => [0, min (i + 1) (n - 1), min (i + 2) (n - 1)])]
  have hfan : ∀ m, m ≤ n - 2 →
      (List.range m).map (fun i => [0, min (i + 1) (n - 1), min (i + 2) (n - 1)]) =
        (List.range m).map (fun i => [0, i + 1, i + 2]) := by
    intro m hm
    apply List.map_congr_left
    intro i hi
    have := List.mem_range.1 hi
    have e1 : min (i + 1) (n - 1) = i + 1 := by omega
    have e2 : min (i + 2) (n - 1) = i + 2 := by omega
    rw [e1, e2]
  unfold fan_triangles
  by_cases hodd : n % 2 = 1
  · have hc : 2 * ((n - 2 + 1) / 2) = (n - 2) + 1 := by omega
    rw [hc, List.range_succ, List.map_append, hfan (n - 2) (le_refl _), if_pos hodd]
    have e1 : min (n - 2 + 1) (n - 1) = n - 1 := by omega
    have e2 : min (n - 2 + 2) (n - 1) = n - 1 := by omega
    simp [e1, e2]
  · have hc : 2 * ((n - 2 + 1) / 2) = n - 2 := by omega
    rw [hc, hfan (n - 2) (le_refl _), if_neg hodd, List.append_nil]

theorem fan_triangles_nodup (n : Nat) :
    (fan_triangles n).Nodup ∧ ∀ tri ∈ fan_triangles n, tri.Nodup := by
  unfold fan_triangles
  constructor
  · apply List.Nodup.map _ (List.nodup_range _)
    intro i j h
    simp only [List.cons.injEq, and_true, true_and] at h
    omega
  · intro tri htri
    simp only [List.mem_map, List.mem_range] at htri
    obtain ⟨i, -, rfl⟩ := htri
    simp

theorem fan_triangles_cover (n : Nat) (hn : 3 ≤ n) (v : Nat) (hv : v < n) :
    ∃ tri ∈ fan_triangles n, v ∈ tri := by
  unfold fan_triangles
  by_cases h0 : v = 0
  · exact ⟨[0, 1, 2], List.mem_map.2 ⟨0, List.mem_range.2 (by omega), rfl⟩, by simp [h0]⟩
  · by_cases h1 : v ≤ n - 2
    · refine ⟨[0, (v - 1) + 1, (v - 1) + 2], List.mem_map.2 ⟨v - 1, List.mem_range.2 (by omega), rfl⟩, ?_⟩
      have : v - 1 + 1 = v := by omega
      simp [this]
    · refine ⟨[0, (n - 3) + 1, (n - 3) + 2], List.mem_map.2 ⟨n - 3, List.mem_range.2 (by omega), rfl⟩, ?_⟩
      have : n - 3 + 2 = v := by omega
      simp [this]

/-- C17. Polygon rides the shared index pattern as a triangle fan: provided
the vertex positions `0 .. 4*MAX_COMBINE-1` fit the 16-bit index type, the
index buffer created by `shader_init` holds, for every quad slot
`q < MAX_COMBINE`, the six indices `4q, 4q+1, 4q+2, 4q, 4q+2, 4q+3`;
`shader_drawpolygon` submits the quads with vertex indices `quad_indices`;
and for every `n ≥ 3`, whatever slots these quads occupy, the triangles
assembled from the pattern are, in terms of fan vertices, the triangles
`(v0, vj, vj+1)` for `j = 1 .. n-2`, each once and with three different
vertices, followed for odd `n` by one triangle `(v0, v(n-1), v(n-1))` with a
repeated vertex; every fan vertex lies in one of the fan triangles. -/
theorem polygon_index_pattern (H : Host) (hfit : 4 * H.MAX_COMMBINE ≤ 65536) :
    (⟨.render_buffer_create .INDEXBUFFER (index_data H.MAX_COMMBINE) (6 * H.MAX_COMMBINE), 0⟩ :
      Issued) ∈ (shader_init H).dev ∧
    (∀ q, q < H.MAX_COMMBINE →
      (List.range 6).map (fun e => (index_data H.MAX_COMMBINE).getD (6 * q + e) 0) =
        [4 * q, 4 * q + 1, 4 * q + 2, 4 * q, 4 * q + 2, 4 * q + 3]) ∧
    (∀ (n : Nat) (s : Machine) (vb : List vertex_pack) (c a : Nat), 3 ≤ n → n ≤ vb.length →
      shader_drawpolygon H s (n : Int) vb c a =
        .ok (draw_all H s ((List.range ((n - 2 + 1) / 2)).map (fun k =>
          (quad_indices n k).map (fun j => vb.getD j vertex_zero))) c a)) ∧
    (∀ (n : Nat) (slot : Nat → Nat), 3 ≤ n → (∀ k, slot k < H.MAX_COMMBINE) →
      fan_triangles_drawn (index_data H.MAX_COMMBINE) n slot =
        (List.range (n - 2)).map (fun i => [0, i + 1, i + 2]) ++
          (if n % 2 = 1 then [[0, n - 1, n - 1]] else []) ∧
      ((List.range (n - 2)).map (fun i => [0, i + 1, i + 2])).Nodup ∧
      (∀ tri ∈ (List.range (n - 2)).map (fun i => [0, i + 1, i + 2]), tri.Nodup) ∧
      ¬ [0, n - 1, n - 1].Nodup ∧
      ∀ v, v < n → ∃ tri ∈ (List.range (n - 2)).map (fun i => [0, i + 1, i + 2]), v ∈ tri) := by
  refine ⟨(shader_init_buffers H).1, fun q hq => index_data_slot _ q hq hfit, ?_, ?_⟩
  · intro n s vb c a hn hvb
    rw [shader_drawpolygon_eq H s vb c a n (by omega) hvb]
    have hm : max 1 ((n - 1) / 2) = (n - 2 + 1) / 2 := by omega
    rw [hm, List.range_eq_range']
    rfl
  · intro n slot hn hslot
    refine ⟨fan_triangles_drawn_eq _ n slot hfit hn hslot, (fan_triangles_nodup n).1,
      (fan_triangles_nodup n).2, by simp, fun v hv => fan_triangles_cover n hn v hv⟩

/-- Witness for C17: on the host with two quad slots, the seven-vertex fan
whose three quads sit in slots 0, 1, 0. -/
theorem polygon_index_pattern_witness :
    index_data host0.MAX_COMMBINE = [0, 1, 2, 0, 2, 3, 4, 5, 6, 4, 6, 7] ∧
    fan_triangles_drawn (index_data host0.MAX_COMMBINE) 7 (fun k => k % 2) =
      [[0, 1, 2], [0, 2, 3], [0, 3, 4], [0, 4, 5], [0, 5, 6], [0, 6, 6]] ∧
    fan_triangles_drawn (index_data host0.MAX_COMMBINE) 7 (fun k => k % 2) =
        (List.range (7 - 2)).map (fun i => [0, i + 1, i + 2]) ++
          (if 7 % 2 = 1 then [[0, 7 - 1, 7 - 1]] else []) :=
  ⟨by decide, by decide,
   ((polygon_index_pattern host0 (by decide)).2.2.2 7 (fun k => k % 2) (by decide)
      (fun k => Nat.mod_lt k (by decide))).1⟩

/-! ## Uniform slots of a material -/

theorem shader_uniformsize_nonneg (t : UNIFORM_FORMAT) : 0 ≤ shader_uniformsize t := by
  cases t <;> decide

theorem packed_offset_step (types : List UNIFORM_FORMAT) (b : Nat) :
    packed_offset types b ≤ packed_offset types (b + 1) := by
  cases h : types.get? b with
  | none =>
    have hlen : types.length ≤ b := by
      simp only [List.get?_eq_getElem?] at h
      exact List.getElem?_eq_none_iff.1 h
    unfold packed_offset
    rw [List.take_of_length_le hlen, List.take_of_length_le (by omega)]
  | some x =>
    rw [packed_offset_succ types b x h]
    have := shader_uniformsize_nonneg x
    omega

theorem packed_offset_mono (types : List UNIFORM_FORMAT) (a b : Nat) (h : a ≤ b) :
    packed_offset types a ≤ packed_offset types b := by
  induction b with
  | zero =>
    have : a = 0 := by omega
    rw [this]
  | succ b ih =>
    by_cases hab : a = b + 1
    · rw [hab]
    · exact le_trans (ih (by omega)) (packed_offset_step types b)

theorem packed_offset_nonneg (types : List UNIFORM_FORMAT) (a : Nat) :
    0 ≤ packed_offset types a := by
  have := packed_offset_mono types 0 a (Nat.zero_le a)
  simpa [packed_offset] using this

theorem run_eq_of_agree (l1 l2 : List Nat) (k c : Nat)
    (h : ∀ pos, k ≤ pos → pos < k + c → l1.get? pos = l2.get? pos) :
    (l1.drop k).take c = (l2.drop k).take c := by
  apply List.ext_getElem?
  intro i
  simp only [List.getElem?_take, List.getElem?_drop]
  split_ifs with hi
  · have := h (k + i) (by omega) (by omega)
    simpa [List.get?_eq_getElem?] using this
  · rfl

theorem splice_frame (dst v : List Nat) (o n : Nat) (h1 : o + n ≤ dst.length)
    (h2 : n ≤ v.length) (pos : Nat) (hpos : pos < o ∨ o + n ≤ pos) :
    (dst.take o ++ v.take n ++ dst.drop (o + n)).get? pos = dst.get? pos := by
  obtain ⟨-, ht, hd, -⟩ := splice_floats dst v o n h1 h2
  simp only [List.get?_eq_getElem?]
  rcases hpos with hlt | hge
  · have e1 := @List.getElem?_take_of_lt _ (dst.take o ++ v.take n ++ dst.drop (o + n)) o pos hlt
    have e2 := @List.getElem?_take_of_lt _ dst o pos hlt
    rw [← e1, ← e2, ht]
  · obtain ⟨d, rfl⟩ : ∃ d, pos = o + n + d := ⟨pos - (o + n), by omega⟩
    have e1 := List.getElem?_drop (dst.take o ++ v.take n ++ dst.drop (o + n)) (o + n) d
    have e2 := List.getElem?_drop dst (o + n) d
    rw [← e1, ← e2, hd]

theorem material_setuniform_success (s : Machine) (m m1 : material) (index n : Int)
    (v : List Nat) (h : material_setuniform s m index n v = .ok (m1, 0)) :
    (0 ≤ m.p ∧ m.p < MAX_PROGRAM) ∧
    (0 ≤ index ∧ index < (s.rs.program m.p.toNat).uniform_number ∧ index < MAX_UNIFORM) ∧
    n = shader_uniformsize ((s.rs.program m.p.toNat).uniform index.toNat).type ∧
    0 ≤ ((s.rs.program m.p.toNat).uniform index.toNat).offset ∧
    ((s.rs.program m.p.toNat).uniform index.toNat).offset.toNat + n.toNat ≤ m.uniform.length ∧
    n.toNat ≤ v.length ∧
    m1 = material.mk m.p m.texture
      (m.uniform.take ((s.rs.program m.p.toNat).uniform index.toNat).offset.toNat ++
        v.take n.toNat ++
        m.uniform.drop (((s.rs.program m.p.toNat).uniform index.toNat).offset.toNat + n.toNat)) := by
  unfold material_setuniform at h
  dsimp only at h
  split_ifs at h with h1 h2 h3 h4
  · simp only [Except.ok.injEq, Prod.mk.injEq] at h
    exact absurd h.2 (by decide)
  · have hn : n = shader_uniformsize ((s.rs.program m.p.toNat).uniform index.toNat).type := by
      by_contra hc
      exact h4 (fun e => hc e.symm)
    unfold memcpy_floats at h
    by_cases h5 : ((s.rs.program m.p.toNat).uniform index.toNat).offset < 0 ∨ n < 0
    · rw [if_pos h5] at h
      simp [Except.map] at h
    · rw [if_neg h5] at h
      by_cases h6 : v.length < n.toNat ∨ m.uniform.length <
          ((s.rs.program m.p.toNat).uniform index.toNat).offset.toNat + n.toNat
      · rw [if_pos h6] at h
        simp [Except.map] at h
      · rw [if_neg h6] at h
        simp only [Except.map, Except.ok.injEq, Prod.mk.injEq, and_true] at h
        exact ⟨by omega, ⟨h2.1, h2.2, by omega⟩, hn, by omega, by omega, by omega, h.symm⟩

theorem packed_slot_disjoint (p : program) (len : Nat) (types : List UNIFORM_FORMAT)
    (hp : packed p len types) (i j : Nat) (hi : i < len) (hj : j < len) (hij : j ≠ i) :
    (p.uniform j).offset.toNat + (shader_uniformsize (p.uniform j).type).toNat ≤
        (p.uniform i).offset.toNat ∨
    (p.uniform i).offset.toNat + (shader_uniformsize (p.uniform i).type).toNat ≤
        (p.uniform j).offset.toNat := by
  obtain ⟨hoi, hti⟩ := hp.slot i hi
  obtain ⟨hoj, htj⟩ := hp.slot j hj
  have hsi := packed_offset_succ types i _ hti
  have hsj := packed_offset_succ types j _ htj
  have hni := packed_offset_nonneg types i
  have hnj := packed_offset_nonneg types j
  have hzi := shader_uniformsize_nonneg (p.uniform i).type
  have hzj := shader_uniformsize_nonneg (p.uniform j).type
  rw [hoi, hoj]
  by_cases hlt : j < i
  · left
    have := packed_offset_mono types (j + 1) i (by omega)
    omega
  · right
    have := packed_offset_mono types (i + 1) j (by omega)
    omega

theorem packed_footprint (p : program) (len : Nat) (types : List UNIFORM_FORMAT)
    (hp : packed p len types) (i : Nat) (hi : i < len) :
    (p.uniform i).offset + shader_uniformsize (p.uniform i).type ≤
      (p.uniform (p.uniform_number - 1).toNat).offset +
        shader_uniformsize (p.uniform (p.uniform_number - 1).toNat).type := by
  have hlast : (p.uniform_number - 1).toNat = len - 1 := by rw [hp.number]; omega
  rw [hlast]
  obtain ⟨hoi, hti⟩ := hp.slot i hi
  obtain ⟨hol, htl⟩ := hp.slot (len - 1) (by omega)
  have hsi := packed_offset_succ types i _ hti
  have hsl := packed_offset_succ types (len - 1) _ htl
  have := packed_offset_mono types (i + 1) (len - 1 + 1) (by omega)
  rw [hoi, hol]
  omega

/-- C20. Uniform slots are disjoint and inside the footprint: for a program
whose uniforms were registered by successful `shader_adduniform` calls after
`shader_load`, and a material bound to it, a `material_setuniform` on slot
`index` that returns 0 stores `v[0..n-1]` at the float positions
`offset .. offset + size - 1` of that slot, which end at or below the
program's total footprint (last offset plus last size); every float position
outside that range, hence the stored floats of every other slot, the length
of the storage, the texture ids and the program pointer are unchanged. -/
theorem uniform_slots_disjoint (H : Host) (s0 s s1 : Machine) (prog : Int) (fs vs : String)
    (texture : Int) (decls : List (String × UNIFORM_FORMAT)) (idxs : List Int)
    (hload : shader_load H s0 prog fs vs texture = .ok s)
    (hrun : adduniforms H s prog decls = .ok (s1, idxs))
    (hsucc : ∀ i ∈ idxs, i ≠ -1)
    (m m1 : material) (hinit : m.p = prog) (index n : Int) (v : List Nat)
    (hset : material_setuniform s1 m index n v = .ok (m1, 0)) :
    (0 ≤ index ∧ index < (decls.length : Int)) ∧
    n = shader_uniformsize (table_slot s1 prog index.toNat).type ∧
    0 ≤ (table_slot s1 prog index.toNat).offset ∧
    (table_slot s1 prog index.toNat).offset + n ≤ uniform_footprint s1 prog ∧
    (m1.uniform.drop (table_slot s1 prog index.toNat).offset.toNat).take n.toNat =
      v.take n.toNat ∧
    (∀ pos, pos < (table_slot s1 prog index.toNat).offset.toNat ∨
        (table_slot s1 prog index.toNat).offset.toNat + n.toNat ≤ pos →
      m1.uniform.get? pos = m.uniform.get? pos) ∧
    (∀ j, j < decls.length → j ≠ index.toNat →
      float_run m1.uniform (table_slot s1 prog j).offset (table_slot s1 prog j).type =
        float_run m.uniform (table_slot s1 prog j).offset (table_slot s1 prog j).type) ∧
    m1.uniform.length = m.uniform.length ∧ m1.texture = m.texture ∧ m1.p = m.p := by
  obtain ⟨-, hlen, hp⟩ := adduniforms_packed H prog decls s s1 idxs 0 [] (by omega)
    (shader_load_packed H s0 s prog fs vs texture hload) hrun hsucc
  simp only [Nat.zero_add, List.nil_append] at hlen hp
  obtain ⟨-, ⟨hi0, hi1, -⟩, hn, hoff, hroom, hv, hm1⟩ :=
    material_setuniform_success s1 m m1 index n v hset
  rw [hinit] at hi1 hn hoff hroom hm1
  rw [hp.number] at hi1
  have hilt : index.toNat < decls.length := by omega
  obtain ⟨sp1, -, -, sp4⟩ := splice_floats m.uniform v
    ((s1.rs.program prog.toNat).uniform index.toNat).offset.toNat n.toNat hroom hv
  have hframe : ∀ pos, pos < ((s1.rs.program prog.toNat).uniform index.toNat).offset.toNat ∨
        ((s1.rs.program prog.toNat).uniform index.toNat).offset.toNat + n.toNat ≤ pos →
      m1.uniform.get? pos = m.uniform.get? pos := by
    intro pos hpos
    rw [hm1]
    exact splice_frame m.uniform v _ _ hroom hv pos hpos
  have hn0 : 0 ≤ n := by rw [hn]; exact shader_uniformsize_nonneg _
  refine ⟨⟨hi0, hi1⟩, hn, hoff, ?_, ?_, hframe, ?_, ?_, ?_, ?_⟩
  · have := packed_footprint _ _ _ hp index.toNat hilt
    simp only [table_slot, uniform_footprint]
    rw [hn]
    exact this
  · rw [hm1]
    exact sp1
  · intro j hj hji
    unfold float_run
    simp only [table_slot]
    apply run_eq_of_agree
    intro pos hlo hhi
    apply hframe
    have hd := packed_slot_disjoint _ _ _ hp index.toNat j hilt hj hji
    rw [← hn] at hd
    omega
  · rw [hm1]; exact sp4
  · rw [hm1]
  · rw [hm1]; exact hinit.symm

theorem set_mvp_ok : material_setuniform registered0 mat0 1 16 sixteen = .ok (mat0_mvp, 0) := rfl

/-- Witness for C20: the mat4 slot of `mat0` (offset 4, 16 floats, footprint
21) is set; the vec4 slot before it and the scalar slot after it keep their
floats. -/
theorem uniform_slots_disjoint_witness :
    ((0 ≤ (1 : Int) ∧ (1 : Int) < (decls0.length : Int)) ∧
    (16 : Int) = shader_uniformsize (table_slot registered0 0 (1 : Int).toNat).type ∧
    0 ≤ (table_slot registered0 0 (1 : Int).toNat).offset ∧
    (table_slot registered0 0 (1 : Int).toNat).offset + 16 ≤ uniform_footprint registered0 0 ∧
    (mat0_mvp.uniform.drop (table_slot registered0 0 (1 : Int).toNat).offset.toNat).take
        (16 : Int).toNat = sixteen.take (16 : Int).toNat ∧
    (∀ pos, pos < (table_slot registered0 0 (1 : Int).toNat).offset.toNat ∨
        (table_slot registered0 0 (1 : Int).toNat).offset.toNat + (16 : Int).toNat ≤ pos →
      mat0_mvp.uniform.get? pos = mat0.uniform.get? pos) ∧
    (∀ j, j < decls0.length → j ≠ (1 : Int).toNat →
      float_run mat0_mvp.uniform (table_slot registered0 0 j).offset
          (table_slot registered0 0 j).type =
        float_run mat0.uniform (table_slot registered0 0 j).offset
          (table_slot registered0 0 j).type) ∧
    mat0_mvp.uniform.length = mat0.uniform.length ∧ mat0_mvp.texture = mat0.texture ∧
    mat0_mvp.p = mat0.p) ∧
    uniform_footprint registered0 0 = 21 ∧
    mat0_mvp.uniform = [0, 0, 0, 0, 1, 2, 3, 4, 5, 6, 7, 8, 9, 10, 11, 12, 13, 14, 15, 16, 0] :=
  ⟨uniform_slots_disjoint host0 (shader_init host0) loaded0 registered0 0 "fs" "vs" 1 decls0
      [0, 1, 2] load0_ok register0_ok (by decide) mat0 mat0_mvp rfl 1 16 sixteen set_mvp_ok,
   by decide, by decide⟩

end Ejoy2d
